import Mathlib

/-!
Verification of the Akinator inference-and-learning engine (`main.py`).

The engine is embedded shallowly:
* probabilities and matrix entries are exact rationals (`ℚ`);
* the entropy computation of the question selector is real-valued
  (`Real.logb 2`), matching `np.log2`;
* the per-session state is a `Session` structure, the in-memory session
  registry an association list keyed by session id;
* fallible API handlers return a `StepResult` that carries the error kind.

Numeric literals of the source are translated exactly:
`0.05 = 1/20`, `1e-6 = 1/1000000`, `SEUIL = 0.7 = 7/10`, `alpha = 0.1 = 1/10`,
`VALEURS_REPONSES = [1, 0.75, 0.5, 0.25, 0]`.
-/

namespace Akinator

/-- `VALEURS_REPONSES = [1, 0.75, 0.5, 0.25, 0]` from `main.py`. -/
def VALEURS_REPONSES : List ℚ := [1, 3/4, 1/2, 1/4, 0]

/-- `SEUIL = 0.7` from `main.py`. -/
def SEUIL : ℚ := 7/10

/-! ### numpy primitives used by the engine -/

/-- Helper for `np.argmin`: first index of the minimum together with its
value, `none` on the empty list.  The head wins ties (`x ≤ v`), matching
numpy's first-occurrence rule. -/
def argminAux {α : Type} [LinearOrder α] : List α → Option (ℕ × α)
  | [] => none
  | x :: xs =>
    match argminAux xs with
    | none => some (0, x)
    | some (j, v) => if x ≤ v then some (0, x) else some (j + 1, v)

/-- `np.argmin`: index of the first occurrence of the minimum. -/
def np_argmin {α : Type} [LinearOrder α] (l : List α) : ℕ :=
  match argminAux l with
  | none => 0
  | some (j, _) => j

/-- Helper for `np.argmax`: first index of the maximum together with its
value. The head wins ties (`v ≤ x`). -/
def argmaxAux {α : Type} [LinearOrder α] : List α → Option (ℕ × α)
  | [] => none
  | x :: xs =>
    match argmaxAux xs with
    | none => some (0, x)
    | some (j, v) => if v ≤ x then some (0, x) else some (j + 1, v)

/-- `np.argmax`: index of the first occurrence of the maximum. -/
def np_argmax {α : Type} [LinearOrder α] (l : List α) : ℕ :=
  match argmaxAux l with
  | none => 0
  | some (j, _) => j

/-! ### `donner_proba_animaux_sachant_r` -/

/-- One entry of `np.maximum(1 - abs(r - donnees), 0.05)`. -/
def likelihood (r d : ℚ) : ℚ := max (1 - |r - d|) (1/20)

/-- One row of `numerateurs = np.maximum(1 - abs(r - donnees), 0.05) * proba_animaux`. -/
def numer_row (r : ℚ) (row P : List ℚ) : List ℚ :=
  List.zipWith (fun d p => likelihood r d * p) row P

/-- One entry of the denominator vector after the in-place substitution
`denominateur[denominateur == 0] = 1`. -/
def den_subst (r : ℚ) (row P : List ℚ) : ℚ :=
  if (numer_row r row P).sum = 0 then 1 else (numer_row r row P).sum

/-- One row of the posterior matrix `np.divide(numerateurs, denominateur.reshape(-1, 1))`. -/
def post_row (r : ℚ) (row P : List ℚ) : List ℚ :=
  (numer_row r row P).map (· / den_subst r row P)

/-- `donner_proba_animaux_sachant_r(r, donnees, proba_animaux)`: the
posterior matrix (one row per question) and the substituted denominator
vector, exactly as returned by the source function. -/
def donner_proba_animaux_sachant_r (r : ℚ) (donnees : List (List ℚ)) (P : List ℚ) :
    List (List ℚ) × List ℚ :=
  (donnees.map (fun row => post_row r row P), donnees.map (fun row => den_subst r row P))

/-! ### `recherche_bonne_reponse`

`i_premier, i_second, *_ = np.argsort(proba_animaux)[::-1]` unpacks the two
top indices of the descending sort and raises `ValueError` when fewer than
two candidates exist; `i_premier` is an index of the maximum.  Among tied
maxima a reversed stable ascending sort puts the largest index first; the
tie order is observable only if two tied maxima both exceed `SEUIL`, which
cannot happen for (sub-)distributions. -/

/-- `np.argmax` variant breaking ties toward the largest index, i.e. the
head of `np.argsort(l)[::-1]` for a stable sort. -/
def np_argmax_last (l : List ℚ) : ℕ :=
  l.length - 1 - np_argmax l.reverse

/-- Result of `recherche_bonne_reponse`. -/
inductive RechercheResult : Type
  | unpackError : RechercheResult
  | found : ℕ → ℚ → RechercheResult
  | notFound : RechercheResult
deriving DecidableEq

/-- `recherche_bonne_reponse(proba_animaux, animaux)` (the `animaux`
argument is unused by the source body). -/
def recherche_bonne_reponse (P : List ℚ) : RechercheResult :=
  if P.length < 2 then .unpackError
  else
    let ip := np_argmax_last P
    if SEUIL < P.getD ip 0 then .found ip (P.getD ip 0) else .notFound

/-! ### `calcul_IM` and `choix_meilleure_question` -/

/-- One term of `np.where(x > 0, -x * np.log2(x), 0)`. -/
noncomputable def entropy_term (x : ℚ) : ℝ :=
  if 0 < x then -(x : ℝ) * Real.logb 2 (x : ℝ) else 0

/-- One entry of `h_r`: the base-2 Shannon entropy of one posterior row. -/
noncomputable def h_row (r : ℚ) (row P : List ℚ) : ℝ :=
  ((post_row r row P).map entropy_term).sum

/-- One entry of `IM = Σ_r h_r * p_r` (the loop of `calcul_IM` for a fixed
question, summed over `VALEURS_REPONSES`). -/
noncomputable def IM_row (row P : List ℚ) : ℝ :=
  (VALEURS_REPONSES.map (fun r => h_row r row P * (den_subst r row P : ℝ))).sum

/-- `calcul_IM(donnees, proba_animaux)`: the expected-entropy vector, one
entry per question. -/
noncomputable def calcul_IM (donnees : List (List ℚ)) (P : List ℚ) : List ℝ :=
  donnees.map (fun row => IM_row row P)

/-- `np.where(questions_pas_encore_posees, IM, np.inf)`: asked questions get
`⊤` so that `np.argmin` never picks them while an unasked one remains. -/
noncomputable def maskInf (mask : List Bool) (v : List ℝ) : List (WithTop ℝ) :=
  List.zipWith (fun m x => if m then (x : WithTop ℝ) else ⊤) mask v

/-- `choix_meilleure_question(donnees, proba_animaux, questions_pas_encore_posees)`:
`None` when every question has been asked, otherwise the argmin of the
masked expected-entropy vector. -/
noncomputable def choix_meilleure_question (donnees : List (List ℚ)) (P : List ℚ)
    (mask : List Bool) : Option ℕ :=
  if mask.any id then some (np_argmin (maskInf mask (calcul_IM donnees P)))
  else none

/-! ### `actualisation_valeurs_theoriques` -/

/-- Read `donnees[q, c]` (0 outside the matrix; all uses are in range). -/
def getCell (D : List (List ℚ)) (q c : ℕ) : ℚ := (D.getD q []).getD c 0

/-- Write `donnees[q, c] = v` (no-op outside the matrix; all uses are in range). -/
def setCell (D : List (List ℚ)) (q c : ℕ) (v : ℚ) : List (List ℚ) :=
  D.set q ((D.getD q []).set c v)

/-- `actualisation_valeurs_theoriques(donnees, indice_animal, reponses_donnees)`:
for every `(question, reponse)` of the answer history,
`donnees[question, indice_animal] += 0.1 * (VALEURS_REPONSES[reponse] - donnees[question, indice_animal])`. -/
def actualisation_valeurs_theoriques (D : List (List ℚ)) (ia : ℕ)
    (hist : List (ℕ × ℕ)) : List (List ℚ) :=
  hist.foldl
    (fun acc p =>
      setCell acc p.1 ia
        (getCell acc p.1 ia + (1/10) * (VALEURS_REPONSES.getD p.2 0 - getCell acc p.1 ia)))
    D

/-! ### Session state and the API handlers

`sessions[session_id]` is a dict holding the per-session fields created by
`start_session`; `question_courante` and `animal_propose` are added and
removed dynamically, modelled as a defaulted field and an `Option`. -/

/-- One session dict of the in-memory `sessions` registry. -/
structure Session : Type where
  animaux : List String
  compteur_apparitions : List ℕ
  questions : List String
  donnees : List (List ℚ)
  proba_animaux : List ℚ
  reponses_donnees : List (ℕ × ℕ)
  questions_pas_encore_posees : List Bool
  compteur_question : ℕ
  echecs_consecutifs : ℕ
  question_courante : ℕ
  animal_propose : Option ℕ
deriving DecidableEq

/-- Python-dict insertion for `reponses_donnees[k] = v`: an existing key
keeps its position and gets the new value, a new key is appended. -/
def dictInsert : List (ℕ × ℕ) → ℕ → ℕ → List (ℕ × ℕ)
  | [], k, v => [(k, v)]
  | (k', v') :: rest, k, v =>
    if k' = k then (k, v) :: rest else (k', v') :: dictInsert rest k v

/-- Error kinds surfaced by the handlers (HTTP 404/400/500 in the source). -/
inductive ApiError : Type
  | unknownSession : ApiError
  | invalidAnswerIndex : ApiError
  | noGuessPending : ApiError
  | internalError : ApiError
deriving DecidableEq

/-- The data handed to `sauvegarde_csv` after a confirmed win (persistence
itself is an external collaborator). -/
structure SavedKB : Type where
  animaux : List String
  compteur_apparitions : List ℕ
  questions : List String
  donnees : List (List ℚ)
deriving DecidableEq

/-- Observable outcome of one handler call. -/
inductive StepResult : Type
  | nextQuestion : String → ℕ → StepResult
  | finalGuess : String → ℚ → StepResult
  | confirmed : SavedKB → StepResult
  | needSuggestion : StepResult
  | apiError : ApiError → StepResult
deriving DecidableEq

/-- Body of `/answer` after the session lookup: validation of the answer
index, then recording of the answer, the belief update, the confidence
check and the next-question/forced-guess decision, in source order. -/
noncomputable def answer_core (s : Session) (rep : ℤ) : Session × StepResult :=
  let iq := s.question_courante
  if 0 ≤ rep ∧ rep < (VALEURS_REPONSES.length : ℤ) then
    let a := rep.toNat
    let s1 : Session :=
      { s with
        reponses_donnees := dictInsert s.reponses_donnees iq a
        questions_pas_encore_posees := s.questions_pas_encore_posees.set iq false }
    let postP :=
      ((donner_proba_animaux_sachant_r (VALEURS_REPONSES.getD a 0) s1.donnees
        s.proba_animaux).1).getD iq []
    let epsP := postP.map (· + 1/1000000)
    let newP := epsP.map (· / epsP.sum)
    let s2 : Session := { s1 with proba_animaux := newP }
    match recherche_bonne_reponse newP with
    | .unpackError => (s2, .apiError .internalError)
    | .found i p =>
      ({ s2 with animal_propose := some i }, .finalGuess (s2.animaux.getD i "") p)
    | .notFound =>
      match choix_meilleure_question s2.donnees newP s2.questions_pas_encore_posees with
      | none =>
        let im := np_argmax newP
        ({ s2 with animal_propose := some im },
         .finalGuess (s2.animaux.getD im "") (newP.getD im 0))
      | some q =>
        ({ s2 with question_courante := q, compteur_question := s2.compteur_question + 1 },
         .nextQuestion (s2.questions.getD q "") (s2.compteur_question + 1))
  else (s, .apiError .invalidAnswerIndex)

/-- Body of `/confirm` after the session lookup; `none` in the first
component means the session dict is deleted from the registry. -/
noncomputable def confirm_core (s : Session) (correct : Bool) : Option Session × StepResult :=
  match s.animal_propose with
  | none => (some s, .apiError .noGuessPending)
  | some ia =>
    if correct then
      let cmpt := s.compteur_apparitions.set ia (s.compteur_apparitions.getD ia 0 + 1)
      let newD := actualisation_valeurs_theoriques s.donnees ia s.reponses_donnees
      (none, .confirmed ⟨s.animaux, cmpt, s.questions, newD⟩)
    else
      let s1 : Session :=
        { s with
          echecs_consecutifs := s.echecs_consecutifs + 1
          proba_animaux := s.proba_animaux.set ia 0
          animal_propose := none }
      if 3 ≤ s1.echecs_consecutifs then (some s1, .needSuggestion)
      else
        match choix_meilleure_question s1.donnees s1.proba_animaux
            s1.questions_pas_encore_posees with
        | none =>
          let im := np_argmax s1.proba_animaux
          (some { s1 with animal_propose := some im },
           .finalGuess (s1.animaux.getD im "") (s1.proba_animaux.getD im 0))
        | some q =>
          (some { s1 with question_courante := q,
                          compteur_question := s1.compteur_question + 1 },
           .nextQuestion (s1.questions.getD q "") (s1.compteur_question + 1))

/-- Body of `/start` for already-loaded data: build the prior from the
appearance counters (a zero total raises `ZeroDivisionError` before any
session is stored, modelled as `none`), store the session, then pick the
first question. -/
noncomputable def start_core (animaux : List String) (compteur : List ℕ)
    (questions : List String) (donnees : List (List ℚ)) :
    Option (Session × StepResult) :=
  let total : ℚ := (compteur.map (fun n : ℕ => (n : ℚ))).sum
  if total = 0 then none
  else
    let P := compteur.map (fun n : ℕ => (n : ℚ) / total)
    let s0 : Session :=
      ⟨animaux, compteur, questions, donnees, P, [],
        List.replicate questions.length true, 0, 0, 0, none⟩
    match choix_meilleure_question donnees P s0.questions_pas_encore_posees with
    | none => some (s0, .apiError .internalError)
    | some q =>
      some ({ s0 with question_courante := q, compteur_question := 1 },
        .nextQuestion (questions.getD q "") 1)

/-! ### The in-memory session registry -/

/-- The global `sessions` dict, keyed by session id. -/
def Sessions : Type := List (String × Session)

/-- Dict lookup `sessions[sid]`. -/
def slookup : Sessions → String → Option Session
  | [], _ => none
  | (k, s) :: rest, sid => if k = sid then some s else slookup rest sid

/-- Dict assignment `sessions[sid] = s`: replace in place, else append. -/
def sstore : Sessions → String → Session → Sessions
  | [], sid, s => [(sid, s)]
  | (k, s') :: rest, sid, s =>
    if k = sid then (sid, s) :: rest else (k, s') :: sstore rest sid s

/-- `del sessions[sid]`. -/
def sdelete : Sessions → String → Sessions
  | [], _ => []
  | (k, s') :: rest, sid =>
    if k = sid then rest else (k, s') :: sdelete rest sid

/-- `/start` on the registry: load data, build the session, store it under a
fresh id. -/
noncomputable def start_session (sessions : Sessions) (sid : String)
    (animaux : List String) (compteur : List ℕ) (questions : List String)
    (donnees : List (List ℚ)) : Sessions × StepResult :=
  match start_core animaux compteur questions donnees with
  | none => (sessions, .apiError .internalError)
  | some (s, res) => (sstore sessions sid s, res)

/-- `/answer` on the registry. -/
noncomputable def answer_question (sessions : Sessions) (sid : String)
    (rep : ℤ) : Sessions × StepResult :=
  match slookup sessions sid with
  | none => (sessions, .apiError .unknownSession)
  | some s =>
    let r := answer_core s rep
    (sstore sessions sid r.1, r.2)

/-- `/confirm` on the registry. -/
noncomputable def confirm_guess (sessions : Sessions) (sid : String)
    (correct : Bool) : Sessions × StepResult :=
  match slookup sessions sid with
  | none => (sessions, .apiError .unknownSession)
  | some s =>
    match confirm_core s correct with
    | (none, res) => (sdelete sessions sid, res)
    | (some s', res) => (sstore sessions sid s', res)

/-! ### Lemmas: `np.argmin` / `np.argmax` return the first optimum -/

theorem argminAux_eq_none {α : Type} [LinearOrder α] {l : List α}
    (h : argminAux l = none) : l = [] := by
  cases l with
  | nil => rfl
  | cons x xs =>
    simp only [argminAux] at h
    cases h' : argminAux xs with
    | none => rw [h'] at h; simp at h
    | some p => rw [h'] at h; cases p with
      | mk j v => by_cases hx : x ≤ v <;> simp [hx] at h

theorem argminAux_isSome {α : Type} [LinearOrder α] {l : List α}
    (h : l ≠ []) : ∃ j v, argminAux l = some (j, v) := by
  cases h' : argminAux l with
  | none => exact absurd (argminAux_eq_none h') h
  | some p => exact ⟨p.1, p.2, by simp⟩

theorem argminAux_spec {α : Type} [LinearOrder α] :
    ∀ (l : List α) (j : ℕ) (v : α), argminAux l = some (j, v) →
      j < l.length ∧ (∀ d, l.getD j d = v) ∧
      (∀ d k, k < l.length → v ≤ l.getD k d) ∧
      (∀ d k, k < j → v < l.getD k d) := by
  intro l
  induction l with
  | nil => intro j v h; simp [argminAux] at h
  | cons x xs ih =>
    intro j v h
    simp only [argminAux] at h
    cases h' : argminAux xs with
    | none =>
      rw [h'] at h
      simp only [Option.some.injEq, Prod.mk.injEq] at h
      obtain ⟨rfl, rfl⟩ := h
      have hnil : xs = [] := argminAux_eq_none h'
      subst hnil
      refine ⟨by simp, by simp, ?_, by omega⟩
      intro d k hk
      have hk0 : k = 0 := by simp at hk; omega
      subst hk0
      simp
    | some p =>
      rw [h'] at h
      obtain ⟨j', v'⟩ := p
      obtain ⟨hj', hget', hle', hfirst'⟩ := ih j' v' h'
      by_cases hx : x ≤ v'
      · simp only [if_pos hx, Option.some.injEq, Prod.mk.injEq] at h
        obtain ⟨rfl, rfl⟩ := h
        refine ⟨by simp, by simp, ?_, by omega⟩
        intro d k hk
        cases k with
        | zero => simp
        | succ k =>
          simp only [List.getD_cons_succ]
          exact le_trans hx (hle' d k (by simpa using hk))
      · simp only [if_neg hx, Option.some.injEq, Prod.mk.injEq] at h
        obtain ⟨rfl, rfl⟩ := h
        push_neg at hx
        refine ⟨by simpa using hj', by simpa using hget', ?_, ?_⟩
        · intro d k hk
          cases k with
          | zero => exact le_of_lt (by simpa using hx)
          | succ k =>
            simp only [List.getD_cons_succ]
            exact hle' d k (by simpa using hk)
        · intro d k hk
          cases k with
          | zero => simpa using hx
          | succ k =>
            simp only [List.getD_cons_succ]
            exact hfirst' d k (by omega)

theorem argmaxAux_eq_none {α : Type} [LinearOrder α] {l : List α}
    (h : argmaxAux l = none) : l = [] := by
  cases l with
  | nil => rfl
  | cons x xs =>
    simp only [argmaxAux] at h
    cases h' : argmaxAux xs with
    | none => rw [h'] at h; simp at h
    | some p => rw [h'] at h; cases p with
      | mk j v => by_cases hx : v ≤ x <;> simp [hx] at h

theorem argmaxAux_spec {α : Type} [LinearOrder α] :
    ∀ (l : List α) (j : ℕ) (v : α), argmaxAux l = some (j, v) →
      j < l.length ∧ (∀ d, l.getD j d = v) ∧
      (∀ d k, k < l.length → l.getD k d ≤ v) ∧
      (∀ d k, k < j → l.getD k d < v) := by
  intro l
  induction l with
  | nil => intro j v h; simp [argmaxAux] at h
  | cons x xs ih =>
    intro j v h
    simp only [argmaxAux] at h
    cases h' : argmaxAux xs with
    | none =>
      rw [h'] at h
      simp only [Option.some.injEq, Prod.mk.injEq] at h
      obtain ⟨rfl, rfl⟩ := h
      have hnil : xs = [] := argmaxAux_eq_none h'
      subst hnil
      refine ⟨by simp, by simp, ?_, by omega⟩
      intro d k hk
      have hk0 : k = 0 := by simp at hk; omega
      subst hk0
      simp
    | some p =>
      rw [h'] at h
      obtain ⟨j', v'⟩ := p
      obtain ⟨hj', hget', hle', hfirst'⟩ := ih j' v' h'
      by_cases hx : v' ≤ x
      · simp only [if_pos hx, Option.some.injEq, Prod.mk.injEq] at h
        obtain ⟨rfl, rfl⟩ := h
        refine ⟨by simp, by simp, ?_, by omega⟩
        intro d k hk
        cases k with
        | zero => simp
        | succ k =>
          simp only [List.getD_cons_succ]
          exact le_trans (hle' d k (by simpa using hk)) hx
      · simp only [if_neg hx, Option.some.injEq, Prod.mk.injEq] at h
        obtain ⟨rfl, rfl⟩ := h
        push_neg at hx
        refine ⟨by simpa using hj', by simpa using hget', ?_, ?_⟩
        · intro d k hk
          cases k with
          | zero => exact le_of_lt (by simpa using hx)
          | succ k =>
            simp only [List.getD_cons_succ]
            exact hle' d k (by simpa using hk)
        · intro d k hk
          cases k with
          | zero => simpa using hx
          | succ k =>
            simp only [List.getD_cons_succ]
            exact hfirst' d k (by omega)

/-- The index `np.argmax` returns is in range, carries the maximum value,
and is the first index attaining it. -/
theorem np_argmax_spec {α : Type} [LinearOrder α] (l : List α) (h : l ≠ []) :
    np_argmax l < l.length ∧
    (∀ d k, k < l.length → l.getD k d ≤ l.getD (np_argmax l) d) ∧
    (∀ d k, k < np_argmax l → l.getD k d < l.getD (np_argmax l) d) := by
  obtain ⟨j, v, hjv⟩ : ∃ j v, argmaxAux l = some (j, v) := by
    cases h' : argmaxAux l with
    | none => exact absurd (argmaxAux_eq_none h') h
    | some p => exact ⟨p.1, p.2, by simp⟩
  obtain ⟨hlt, hget, hle, hfirst⟩ := argmaxAux_spec l j v hjv
  have hm : np_argmax l = j := by simp [np_argmax, hjv]
  rw [hm]
  exact ⟨hlt, fun d k hk => (hget d) ▸ hle d k hk,
    fun d k hk => (hget d) ▸ hfirst d k hk⟩

/-- The index `np.argmin` returns is in range, carries the minimum value,
and is the first index attaining it. -/
theorem np_argmin_spec {α : Type} [LinearOrder α] (l : List α) (h : l ≠ []) :
    np_argmin l < l.length ∧
    (∀ d k, k < l.length → l.getD (np_argmin l) d ≤ l.getD k d) ∧
    (∀ d k, k < np_argmin l → l.getD (np_argmin l) d < l.getD k d) := by
  obtain ⟨j, v, hjv⟩ := argminAux_isSome h
  obtain ⟨hlt, hget, hle, hfirst⟩ := argminAux_spec l j v hjv
  have hm : np_argmin l = j := by simp [np_argmin, hjv]
  rw [hm]
  exact ⟨hlt, fun d k hk => (hget d) ▸ hle d k hk,
    fun d k hk => (hget d) ▸ hfirst d k hk⟩

/-! ### Spec-side question-selection criterion

These definitions are written from the specification's words ("likelihood,
unnormalized posterior mass, base-2 Shannon entropy of the posterior with
0-terms for 0 components, expected entropy"), to be compared with the
source-derived `calcul_IM`. -/

/-- Spec: `likelihood(c) = max(1 − |r − D[q][c]|, 0.05)`. -/
def likelihood_spec (r d : ℚ) : ℚ := max (1 - |r - d|) (5/100)

/-- Spec: unnormalized posterior `likelihood(c) × P[c]`. -/
def unnorm_spec (r : ℚ) (row P : List ℚ) : List ℚ :=
  List.zipWith (fun d p => likelihood_spec r d * p) row P

/-- Spec: `p(r)`, the unnormalized posterior mass for scale value `r`. -/
def mass_spec (r : ℚ) (row P : List ℚ) : ℚ := (unnorm_spec r row P).sum

/-- Spec: the normalized posterior, with divisor 1 substituted when the
mass is zero. -/
def postNorm_spec (r : ℚ) (row P : List ℚ) : List ℚ :=
  (unnorm_spec r row P).map
    (· / (if mass_spec r row P = 0 then 1 else mass_spec r row P))

/-- Spec: `H(r) = −Σ_c post(r,c)·log2(post(r,c))`, a term being 0 when
`post(r,c) = 0`. -/
noncomputable def H_spec (r : ℚ) (row P : List ℚ) : ℝ :=
  ((postNorm_spec r row P).map
    (fun x : ℚ => if x = 0 then 0 else -(x : ℝ) * Real.logb 2 (x : ℝ))).sum

/-- Spec: expected entropy `EH[q] = Σ_r p(r)·H(r)`. -/
noncomputable def EH_spec (row P : List ℚ) : ℝ :=
  (VALEURS_REPONSES.map (fun r => (mass_spec r row P : ℝ) * H_spec r row P)).sum

theorem likelihood_pos (r d : ℚ) : 0 < likelihood r d :=
  lt_of_lt_of_le (by norm_num) (le_max_right _ _)

theorem likelihood_spec_eq (r d : ℚ) : likelihood_spec r d = likelihood r d := by
  unfold likelihood_spec likelihood
  norm_num

theorem unnorm_spec_eq_numer_row (r : ℚ) (row P : List ℚ) :
    unnorm_spec r row P = numer_row r row P := by
  unfold unnorm_spec numer_row
  rw [show likelihood_spec = likelihood from funext fun r => funext fun d => likelihood_spec_eq r d]

theorem numer_row_nonneg (r : ℚ) (row P : List ℚ) (hP : ∀ p ∈ P, 0 ≤ p) :
    ∀ x ∈ numer_row r row P, 0 ≤ x := by
  intro x hx
  unfold numer_row at hx
  rw [List.mem_iff_getElem] at hx
  obtain ⟨n, hn, rfl⟩ := hx
  rw [List.getElem_zipWith]
  exact mul_nonneg (le_of_lt (likelihood_pos r _))
    (hP _ (List.getElem_mem _))

theorem sum_zero_of_nonneg {l : List ℚ} (h0 : ∀ x ∈ l, 0 ≤ x) (hs : l.sum = 0) :
    ∀ x ∈ l, x = 0 := by
  induction l with
  | nil => simp
  | cons y ys ih =>
    have hy : 0 ≤ y := h0 y (by simp)
    have hys : 0 ≤ ys.sum := List.sum_nonneg (fun x hx => h0 x (by simp [hx]))
    rw [List.sum_cons] at hs
    have hy0 : y = 0 := by linarith
    have hsum0 : ys.sum = 0 := by linarith
    intro x hx
    rcases List.mem_cons.mp hx with h | h
    · rw [h, hy0]
    · exact ih (fun z hz => h0 z (by simp [hz])) hsum0 x h

/-- The code's per-question expected-entropy entry agrees with the
specification's `EH[q]` for any componentwise-nonnegative belief vector. -/
theorem IM_row_eq_EH_spec (row P : List ℚ) (hP : ∀ p ∈ P, 0 ≤ p) :
    IM_row row P = EH_spec row P := by
  unfold IM_row EH_spec
  congr 1
  refine List.map_congr_left (fun r _ => ?_)
  by_cases hs : (numer_row r row P).sum = 0
  · have hall : ∀ x ∈ numer_row r row P, x = 0 :=
      sum_zero_of_nonneg (numer_row_nonneg r row P hP) hs
    have hpost : ∀ x ∈ post_row r row P, x = 0 := by
      intro x hx
      unfold post_row at hx
      obtain ⟨y, hy, rfl⟩ := List.mem_map.mp hx
      rw [hall y hy, zero_div]
    have hmass : mass_spec r row P = 0 := by
      unfold mass_spec
      rw [unnorm_spec_eq_numer_row]
      exact hs
    have hhrow : h_row r row P = 0 := by
      unfold h_row
      refine List.sum_eq_zero (fun x hx => ?_)
      obtain ⟨y, hy, rfl⟩ := List.mem_map.mp hx
      rw [hpost y hy]
      simp [entropy_term]
    rw [hhrow, hmass]
    simp
  · have hden : den_subst r row P = (numer_row r row P).sum := by
      unfold den_subst
      rw [if_neg hs]
    have hmass : mass_spec r row P = (numer_row r row P).sum := by
      unfold mass_spec
      rw [unnorm_spec_eq_numer_row]
    have hdpos : 0 < (numer_row r row P).sum := by
      rcases lt_or_eq_of_le (List.sum_nonneg (numer_row_nonneg r row P hP)) with h | h
      · exact h
      · exact absurd h.symm hs
    have hpostnn : ∀ x ∈ post_row r row P, 0 ≤ x := by
      intro x hx
      unfold post_row at hx
      obtain ⟨y, hy, rfl⟩ := List.mem_map.mp hx
      exact div_nonneg (numer_row_nonneg r row P hP y hy) (hden ▸ le_of_lt hdpos)
    have hpost_eq : postNorm_spec r row P = post_row r row P := by
      unfold postNorm_spec post_row
      rw [unnorm_spec_eq_numer_row, hden]
      simp only [hmass, if_neg hs]
    have hH : H_spec r row P = h_row r row P := by
      unfold H_spec h_row
      rw [hpost_eq]
      congr 1
      refine List.map_congr_left (fun x hx => ?_)
      rcases lt_or_eq_of_le (hpostnn x hx) with h | h
      · rw [if_neg (by exact ne_of_gt h), entropy_term, if_pos h]
      · rw [← h]
        simp [entropy_term]
    rw [hH, hmass, hden]
    ring

theorem calcul_IM_length (D : List (List ℚ)) (P : List ℚ) :
    (calcul_IM D P).length = D.length := by
  simp [calcul_IM]

theorem maskInf_length (mask : List Bool) (v : List ℝ) :
    (maskInf mask v).length = min mask.length v.length := by
  simp [maskInf]

/-- Entry `k` of the masked expected-entropy vector. -/
theorem maskInf_calcul_getD (D : List (List ℚ)) (P : List ℚ) (mask : List Bool)
    (hlen : mask.length = D.length) (k : ℕ) (hk : k < D.length) :
    (maskInf mask (calcul_IM D P)).getD k ⊤ =
      if mask.getD k false = true then ((IM_row (D.getD k []) P : ℝ) : WithTop ℝ)
      else ⊤ := by
  have hk' : k < (maskInf mask (calcul_IM D P)).length := by
    rw [maskInf_length, calcul_IM_length, hlen]
    simpa using hk
  rw [List.getD_eq_getElem _ _ hk']
  unfold maskInf
  rw [List.getElem_zipWith]
  have hkm : k < mask.length := by rw [hlen]; exact hk
  have hkc : k < (calcul_IM D P).length := by rw [calcul_IM_length]; exact hk
  rw [show mask.getD k false = mask[k] from List.getD_eq_getElem mask false hkm]
  congr 1
  unfold calcul_IM
  rw [List.getElem_map]
  rw [List.getD_eq_getElem _ _ hk]

/-- `choix_meilleure_question` signals exhaustion exactly when every
question is asked; otherwise it returns an unasked question minimizing the
spec's expected entropy `EH[q]`, ties broken by the lowest index. -/
theorem choix_meilleure_question_spec (D : List (List ℚ)) (P : List ℚ)
    (mask : List Bool) (hlen : mask.length = D.length)
    (hP : ∀ p ∈ P, 0 ≤ p) :
    (choix_meilleure_question D P mask = none ↔ ∀ b ∈ mask, b = false) ∧
    (∀ q, choix_meilleure_question D P mask = some q →
      q < D.length ∧ mask.getD q false = true ∧
      (∀ j, j < D.length → mask.getD j false = true →
        EH_spec (D.getD q []) P ≤ EH_spec (D.getD j []) P) ∧
      (∀ j, j < q → mask.getD j false = true →
        EH_spec (D.getD q []) P < EH_spec (D.getD j []) P)) := by
  constructor
  · unfold choix_meilleure_question
    by_cases h : mask.any id
    · simp only [if_pos h, reduceCtorEq, false_iff]
      obtain ⟨b, hb, hbt⟩ := List.any_eq_true.mp h
      intro hall
      have := hall b hb
      simp only [id] at hbt
      rw [this] at hbt
      exact Bool.false_ne_true hbt
    · simp only [if_neg h, true_iff]
      intro b hb
      have hf : mask.any id = false := Bool.eq_false_iff.mpr h
      have := List.any_eq_false.mp hf b hb
      simpa using this
  · intro q hq
    unfold choix_meilleure_question at hq
    by_cases h : mask.any id
    swap
    · rw [if_neg h] at hq; exact absurd hq (by simp)
    rw [if_pos h] at hq
    have hq' : np_argmin (maskInf mask (calcul_IM D P)) = q := by
      simpa using hq
    obtain ⟨b, hb, hbt⟩ := List.any_eq_true.mp h
    obtain ⟨j0, hj0m, hj0v⟩ := List.mem_iff_getElem.mp hb
    have hj0 : j0 < D.length := by rw [← hlen]; exact hj0m
    have hj0t : mask.getD j0 false = true := by
      rw [List.getD_eq_getElem mask false hj0m, hj0v]
      simpa using hbt
    have hne : maskInf mask (calcul_IM D P) ≠ [] := by
      have : 0 < (maskInf mask (calcul_IM D P)).length := by
        rw [maskInf_length, calcul_IM_length, hlen]
        simp only [min_self]
        omega
      exact List.ne_nil_of_length_pos this
    obtain ⟨hqlt, hmin, hfirst⟩ := np_argmin_spec (maskInf mask (calcul_IM D P)) hne
    rw [hq'] at hqlt hmin hfirst
    have hmlen : (maskInf mask (calcul_IM D P)).length = D.length := by
      rw [maskInf_length, calcul_IM_length, hlen]; simp
    have hqD : q < D.length := by rw [← hmlen]; exact hqlt
    -- the value at q is below the (finite) value at j0, hence finite,
    -- hence q is unasked
    have hj0val : (maskInf mask (calcul_IM D P)).getD j0 ⊤ =
        ((IM_row (D.getD j0 []) P : ℝ) : WithTop ℝ) := by
      rw [maskInf_calcul_getD D P mask hlen j0 hj0, if_pos hj0t]
    have hqle : (maskInf mask (calcul_IM D P)).getD q ⊤ ≤
        (maskInf mask (calcul_IM D P)).getD j0 ⊤ :=
      hmin ⊤ j0 (by rw [hmlen]; exact hj0)
    have hqne : (maskInf mask (calcul_IM D P)).getD q ⊤ ≠ ⊤ := by
      intro htop
      rw [htop, hj0val] at hqle
      exact absurd (top_le_iff.mp hqle) (WithTop.coe_ne_top)
    have hqt : mask.getD q false = true := by
      by_contra hc
      rw [maskInf_calcul_getD D P mask hlen q hqD, if_neg hc] at hqne
      exact hqne rfl
    have hqval : (maskInf mask (calcul_IM D P)).getD q ⊤ =
        ((IM_row (D.getD q []) P : ℝ) : WithTop ℝ) := by
      rw [maskInf_calcul_getD D P mask hlen q hqD, if_pos hqt]
    refine ⟨hqD, hqt, ?_, ?_⟩
    · intro j hjD hjt
      have hjval : (maskInf mask (calcul_IM D P)).getD j ⊤ =
          ((IM_row (D.getD j []) P : ℝ) : WithTop ℝ) := by
        rw [maskInf_calcul_getD D P mask hlen j hjD, if_pos hjt]
      have := hmin ⊤ j (by rw [hmlen]; exact hjD)
      rw [hqval, hjval] at this
      have him : IM_row (D.getD q []) P ≤ IM_row (D.getD j []) P := by
        exact_mod_cast this
      rwa [IM_row_eq_EH_spec _ P hP, IM_row_eq_EH_spec _ P hP] at him
    · intro j hjq hjt
      have hjD : j < D.length := lt_trans hjq hqD
      have hjval : (maskInf mask (calcul_IM D P)).getD j ⊤ =
          ((IM_row (D.getD j []) P : ℝ) : WithTop ℝ) := by
        rw [maskInf_calcul_getD D P mask hlen j hjD, if_pos hjt]
      have := hfirst ⊤ j hjq
      rw [hqval, hjval] at this
      have him : IM_row (D.getD q []) P < IM_row (D.getD j []) P := by
        exact_mod_cast this
      rwa [IM_row_eq_EH_spec _ P hP, IM_row_eq_EH_spec _ P hP] at him

/-! ### The belief update performed by `/answer` -/

/-- The inline update of `answer_question`: posterior row, epsilon addend,
renormalization. -/
def code_update (P row : List ℚ) (r : ℚ) : List ℚ :=
  let eps := (post_row r row P).map (· + 1/1000000)
  eps.map (· / eps.sum)

/-- The belief update as the specification words it: likelihood times prior,
normalize (divisor 1 when the sum is 0), add `1e-6`, renormalize. -/
def belief_update_spec (P row : List ℚ) (r : ℚ) : List ℚ :=
  let eps := (postNorm_spec r row P).map (· + 1/1000000)
  eps.map (· / eps.sum)

theorem postNorm_spec_eq_post_row (r : ℚ) (row P : List ℚ) :
    postNorm_spec r row P = post_row r row P := by
  unfold postNorm_spec post_row den_subst mass_spec
  rw [unnorm_spec_eq_numer_row]

theorem code_update_eq_spec (P row : List ℚ) (r : ℚ) :
    code_update P row r = belief_update_spec P row r := by
  unfold code_update belief_update_spec
  rw [postNorm_spec_eq_post_row]

/-- Selecting row `iq` of the posterior matrix. -/
theorem donner_proba_getD (r : ℚ) (D : List (List ℚ)) (P : List ℚ) (iq : ℕ) :
    ((donner_proba_animaux_sachant_r r D P).1).getD iq [] =
      post_row r (D.getD iq []) P := by
  unfold donner_proba_animaux_sachant_r
  by_cases h : iq < D.length
  · rw [List.getD_eq_getElem _ _ (by simpa using h), List.getElem_map,
      List.getD_eq_getElem _ _ h]
  · rw [List.getD_eq_default _ _ (by simpa using Nat.le_of_not_lt h),
      List.getD_eq_default _ _ (Nat.le_of_not_lt h)]
    rfl

/-- Whatever branch `/answer` takes after a valid answer, the stored belief
vector is the inline update. -/
theorem answer_core_proba_eq (s : Session) (rep : ℤ) (h0 : 0 ≤ rep)
    (h5 : rep < (VALEURS_REPONSES.length : ℤ)) :
    (answer_core s rep).1.proba_animaux =
      code_update s.proba_animaux (s.donnees.getD s.question_courante [])
        (VALEURS_REPONSES.getD rep.toNat 0) := by
  unfold answer_core
  rw [if_pos ⟨h0, h5⟩]
  simp only [donner_proba_getD]
  split
  · rfl
  · rfl
  · split
    · rfl
    · rfl

/-- Division distributes over a list sum. -/
theorem list_sum_map_div (l : List ℚ) (d : ℚ) :
    (l.map (· / d)).sum = l.sum / d := by
  induction l with
  | nil => simp
  | cons x xs ih => simp [List.sum_cons, ih, add_div]

theorem den_subst_pos (r : ℚ) (row P : List ℚ) (hP : ∀ p ∈ P, 0 ≤ p) :
    0 < den_subst r row P := by
  unfold den_subst
  by_cases h : (numer_row r row P).sum = 0
  · rw [if_pos h]; norm_num
  · rw [if_neg h]
    rcases lt_or_eq_of_le (List.sum_nonneg (numer_row_nonneg r row P hP)) with h' | h'
    · exact h'
    · exact absurd h'.symm h

theorem post_row_nonneg (r : ℚ) (row P : List ℚ) (hP : ∀ p ∈ P, 0 ≤ p) :
    ∀ x ∈ post_row r row P, 0 ≤ x := by
  intro x hx
  obtain ⟨y, hy, rfl⟩ := List.mem_map.mp hx
  exact div_nonneg (numer_row_nonneg r row P hP y hy)
    (le_of_lt (den_subst_pos r row P hP))

theorem post_row_length (r : ℚ) (row P : List ℚ) :
    (post_row r row P).length = min row.length P.length := by
  simp [post_row, numer_row]

/-- After the epsilon addend and renormalization, the updated belief vector
sums to exactly 1 and is strictly positive componentwise. -/
theorem code_update_sum_pos (P row : List ℚ) (r : ℚ)
    (hP : ∀ p ∈ P, 0 ≤ p) (hne : post_row r row P ≠ []) :
    (code_update P row r).sum = 1 ∧ ∀ x ∈ code_update P row r, 0 < x := by
  unfold code_update
  set eps := (post_row r row P).map (· + 1/1000000) with heps
  have hepspos : ∀ x ∈ eps, 0 < x := by
    intro x hx
    obtain ⟨y, hy, rfl⟩ := List.mem_map.mp hx
    have := post_row_nonneg r row P hP y hy
    positivity
  have hsumpos : 0 < eps.sum := by
    rcases List.exists_mem_of_ne_nil eps (by simpa [heps] using hne) with ⟨x, hx⟩
    calc 0 < x := hepspos x hx
    _ ≤ eps.sum := List.single_le_sum (fun y hy => le_of_lt (hepspos y hy)) x hx
  constructor
  · rw [list_sum_map_div, div_self (ne_of_gt hsumpos)]
  · intro x hx
    obtain ⟨y, hy, rfl⟩ := List.mem_map.mp hx
    exact div_pos (hepspos y hy) hsumpos

/-! ### Cell-level lemmas about the learning update -/

theorem getD_set_ne {α : Type} (l : List α) (i j : ℕ) (a d : α) (h : j ≠ i) :
    (l.set i a).getD j d = l.getD j d := by
  by_cases hj : j < l.length
  · rw [List.getD_eq_getElem _ _ (by simpa using hj),
      List.getElem_set_ne (fun he => h he.symm), List.getD_eq_getElem _ _ hj]
  · rw [List.getD_eq_default _ _ (by simpa using Nat.le_of_not_lt hj),
      List.getD_eq_default _ _ (Nat.le_of_not_lt hj)]

theorem length_setCell (D : List (List ℚ)) (q c : ℕ) (v : ℚ) :
    (setCell D q c v).length = D.length := by
  simp [setCell]

theorem getD_setCell_other_row (D : List (List ℚ)) (q c : ℕ) (v : ℚ) (k : ℕ)
    (hk : k ≠ q) : (setCell D q c v).getD k [] = D.getD k [] :=
  getD_set_ne D q k _ [] hk

theorem row_length_setCell (D : List (List ℚ)) (q c : ℕ) (v : ℚ) (k : ℕ) :
    ((setCell D q c v).getD k []).length = (D.getD k []).length := by
  by_cases hk : k = q
  · subst hk
    by_cases h : k < D.length
    · unfold setCell
      rw [List.getD_eq_getElem _ _ (by simpa using h), List.getElem_set_self (by simpa using h)]
      simp
    · unfold setCell
      rw [List.set_eq_of_length_le (Nat.le_of_not_lt h)]
  · rw [getD_setCell_other_row D q c v k hk]

theorem getCell_setCell_self (D : List (List ℚ)) (q c : ℕ) (v : ℚ)
    (hq : q < D.length) (hc : c < (D.getD q []).length) :
    getCell (setCell D q c v) q c = v := by
  unfold getCell setCell
  have h1 : (D.set q ((D.getD q []).set c v)).getD q [] = (D.getD q []).set c v := by
    rw [List.getD_eq_getElem _ _ (by simpa using hq)]
    simp
  rw [h1, List.getD_eq_getElem _ _ (by simpa using hc)]
  simp

theorem getCell_setCell_ne (D : List (List ℚ)) (q c : ℕ) (v : ℚ) (q' c' : ℕ)
    (h : q' ≠ q ∨ c' ≠ c) :
    getCell (setCell D q c v) q' c' = getCell D q' c' := by
  by_cases hq : q' = q
  · subst hq
    have hc : c' ≠ c := h.resolve_left (fun hne => hne rfl)
    unfold getCell setCell
    by_cases hlt : q' < D.length
    · have h1 : (D.set q' ((D.getD q' []).set c v)).getD q' [] =
          (D.getD q' []).set c v := by
        rw [List.getD_eq_getElem _ _ (by simpa using hlt)]
        simp
      rw [h1, getD_set_ne _ _ _ _ _ hc]
    · rw [List.set_eq_of_length_le (Nat.le_of_not_lt hlt)]
  · unfold getCell
    rw [getD_setCell_other_row D q c v q' hq]

theorem actualisation_length (D : List (List ℚ)) (ia : ℕ) (hist : List (ℕ × ℕ)) :
    (actualisation_valeurs_theoriques D ia hist).length = D.length := by
  induction hist generalizing D with
  | nil => rfl
  | cons p rest ih =>
    unfold actualisation_valeurs_theoriques
    rw [List.foldl_cons]
    rw [show ∀ D', rest.foldl _ D' = actualisation_valeurs_theoriques D' ia rest
      from fun D' => rfl]
    rw [ih, length_setCell]

theorem actualisation_row_length (D : List (List ℚ)) (ia : ℕ)
    (hist : List (ℕ × ℕ)) (k : ℕ) :
    ((actualisation_valeurs_theoriques D ia hist).getD k []).length =
      ((D.getD k [])).length := by
  induction hist generalizing D with
  | nil => rfl
  | cons p rest ih =>
    unfold actualisation_valeurs_theoriques
    rw [List.foldl_cons]
    rw [show ∀ D', rest.foldl _ D' = actualisation_valeurs_theoriques D' ia rest
      from fun D' => rfl]
    rw [ih, row_length_setCell]

/-- Cells of a non-winning candidate, and of questions outside the answer
history, are left untouched by the learning update. -/
theorem actualisation_untouched (D : List (List ℚ)) (ia : ℕ)
    (hist : List (ℕ × ℕ)) (q c : ℕ)
    (h : c ≠ ia ∨ q ∉ hist.map Prod.fst) :
    getCell (actualisation_valeurs_theoriques D ia hist) q c = getCell D q c := by
  induction hist generalizing D with
  | nil => rfl
  | cons p rest ih =>
    unfold actualisation_valeurs_theoriques
    rw [List.foldl_cons]
    rw [show ∀ D', rest.foldl _ D' = actualisation_valeurs_theoriques D' ia rest
      from fun D' => rfl]
    have hrest : c ≠ ia ∨ q ∉ rest.map Prod.fst := by
      rcases h with h | h
      · exact Or.inl h
      · exact Or.inr (fun hm => h (by simp [List.mem_map] at hm ⊢; tauto))
    rw [ih _ hrest]
    refine getCell_setCell_ne D p.1 ia _ q c ?_
    rcases h with h | h
    · exact Or.inr h
    · refine Or.inl (fun he => h ?_)
      rw [he]
      exact List.mem_map.mpr ⟨p, by simp⟩

/-- For each `(question, answer)` pair of a duplicate-free answer history,
the learning update performs exactly one exponential-moving-average step on
the winning candidate's cell. -/
theorem actualisation_touched (D : List (List ℚ)) (ia : ℕ)
    (hist : List (ℕ × ℕ)) (hnd : (hist.map Prod.fst).Nodup)
    (hrange : ∀ p ∈ hist, p.1 < D.length ∧ ia < (D.getD p.1 []).length) :
    ∀ p ∈ hist, getCell (actualisation_valeurs_theoriques D ia hist) p.1 ia =
      getCell D p.1 ia +
        (1/10) * (VALEURS_REPONSES.getD p.2 0 - getCell D p.1 ia) := by
  induction hist generalizing D with
  | nil => simp
  | cons p0 rest ih =>
    intro p hp
    unfold actualisation_valeurs_theoriques
    rw [List.foldl_cons]
    rw [show ∀ D', rest.foldl _ D' = actualisation_valeurs_theoriques D' ia rest
      from fun D' => rfl]
    have hnotrest : p0.1 ∉ rest.map Prod.fst := by
      rw [List.map_cons, List.nodup_cons] at hnd
      exact hnd.1
    have hq0 : p0.1 < D.length := (hrange p0 (by simp)).1
    have hc0 : ia < (D.getD p0.1 []).length := (hrange p0 (by simp)).2
    rcases List.mem_cons.mp hp with rfl | hp'
    · rw [actualisation_untouched _ ia rest p.1 ia (Or.inr hnotrest)]
      exact getCell_setCell_self D p.1 ia _ hq0 hc0
    · have hne : p.1 ≠ p0.1 := by
        intro he
        exact hnotrest (he ▸ List.mem_map.mpr ⟨p, hp', rfl⟩)
      have hnd' : (rest.map Prod.fst).Nodup := by
        rw [List.map_cons, List.nodup_cons] at hnd
        exact hnd.2
      set D1 := setCell D p0.1 ia (getCell D p0.1 ia +
        (1/10) * (VALEURS_REPONSES.getD p0.2 0 - getCell D p0.1 ia)) with hD1
      have hrange' : ∀ p' ∈ rest, p'.1 < D1.length ∧
          ia < (D1.getD p'.1 []).length := by
        intro p' hp'
        rw [hD1, length_setCell, row_length_setCell]
        exact hrange p' (by simp [hp'])
      have hih := ih D1 hnd' hrange' p hp'
      rw [hih, hD1, getCell_setCell_ne D p0.1 ia _ p.1 ia (Or.inl hne)]

/-! ### Evaluating the question selector on concrete inputs -/

theorem choix_of_any_false (D : List (List ℚ)) (P : List ℚ) (mask : List Bool)
    (h : mask.any id = false) : choix_meilleure_question D P mask = none := by
  unfold choix_meilleure_question
  rw [h]
  simp

theorem choix_eq_some_zero (D : List (List ℚ)) (P : List ℚ) (mask : List Bool)
    (hmask : mask = [true]) (hD : ∃ row, D = [row]) :
    choix_meilleure_question D P mask = some 0 := by
  obtain ⟨row, rfl⟩ := hD
  subst hmask
  unfold choix_meilleure_question
  rw [if_pos (by decide)]
  have hm : maskInf [true] (calcul_IM [row] P) = [((IM_row row P : ℝ) : WithTop ℝ)] := by
    simp [maskInf, calcul_IM]
  rw [hm]
  rfl

/-! ### A concrete reachable trace with 2 candidates and 1 question

Knowledge base: animals `["A","B"]`, appearance counters `[1, 1]`, one
question with matrix row `[1/2, 1/2]`.  The caller starts a session,
answers the question with "Oui", and then rejects two guesses. -/

/-- Session stored by `/start` for the 2-candidate base. -/
def kb2s0 : Session :=
  ⟨["A", "B"], [1, 1], ["q"], [[1/2, 1/2]], [1/2, 1/2], [],
    [true], 1, 0, 0, none⟩

/-- Session after answering the single question with "Oui". -/
def kb2s1 : Session :=
  ⟨["A", "B"], [1, 1], ["q"], [[1/2, 1/2]], [1/2, 1/2], [(0, 0)],
    [false], 1, 0, 0, some 0⟩

/-- Session after the first rejected guess (candidate 0). -/
def kb2s2 : Session :=
  ⟨["A", "B"], [1, 1], ["q"], [[1/2, 1/2]], [0, 1/2], [(0, 0)],
    [false], 1, 1, 0, some 1⟩

/-- Session after the second rejected guess (candidate 1). -/
def kb2s3 : Session :=
  ⟨["A", "B"], [1, 1], ["q"], [[1/2, 1/2]], [0, 0], [(0, 0)],
    [false], 1, 2, 0, some 0⟩

noncomputable def trace2_0 : Sessions :=
  (start_session [] "s" ["A", "B"] [1, 1] ["q"] [[1/2, 1/2]]).1

noncomputable def trace2_1 : Sessions := (answer_question trace2_0 "s" 0).1

noncomputable def trace2_2 : Sessions := (confirm_guess trace2_1 "s" false).1

theorem slookup_single (sid : String) (s : Session) :
    slookup [(sid, s)] sid = some s := by
  simp [slookup]

theorem answer_question_single (sid : String) (s : Session) (rep : ℤ) :
    answer_question [(sid, s)] sid rep =
      (sstore [(sid, s)] sid (answer_core s rep).1, (answer_core s rep).2) := by
  unfold answer_question
  rw [slookup_single]

theorem confirm_guess_single (sid : String) (s : Session) (b : Bool) :
    confirm_guess [(sid, s)] sid b =
      match confirm_core s b with
      | (none, res) => (sdelete [(sid, s)] sid, res)
      | (some s', res) => (sstore [(sid, s)] sid s', res) := by
  unfold confirm_guess
  rw [slookup_single]

theorem trace2_0_eq : trace2_0 = [("s", kb2s0)] := by
  simp only [trace2_0, start_session, start_core]
  rw [choix_eq_some_zero]
  · norm_num [sstore, kb2s0]
  · decide
  · exact ⟨_, rfl⟩

theorem answer_core_kb2s0 :
    answer_core kb2s0 0 = (kb2s1, .finalGuess "A" (1/2)) := by
  simp only [answer_core, kb2s0]
  rw [choix_of_any_false]
  · norm_num [donner_proba_animaux_sachant_r, post_row, numer_row, den_subst,
      likelihood, abs_of_pos, max_eq_left, recherche_bonne_reponse,
      np_argmax_last, np_argmax, argmaxAux, SEUIL, VALEURS_REPONSES,
      dictInsert, kb2s1, Session.mk.injEq]
  · decide

theorem confirm_core_kb2s1 :
    confirm_core kb2s1 false = (some kb2s2, .finalGuess "B" (1/2)) := by
  simp only [confirm_core, kb2s1]
  rw [choix_of_any_false]
  · norm_num [np_argmax, argmaxAux, kb2s2, Session.mk.injEq]
  · decide

theorem confirm_core_kb2s2 :
    confirm_core kb2s2 false = (some kb2s3, .finalGuess "A" 0) := by
  simp only [confirm_core, kb2s2]
  rw [choix_of_any_false]
  · norm_num [np_argmax, argmaxAux, kb2s3, Session.mk.injEq]
  · decide

theorem trace2_1_eq : trace2_1 = [("s", kb2s1)] := by
  unfold trace2_1
  rw [trace2_0_eq, answer_question_single, answer_core_kb2s0]
  norm_num [sstore]

theorem trace2_2_eq : trace2_2 = [("s", kb2s2)] := by
  unfold trace2_2
  rw [trace2_1_eq, confirm_guess_single, confirm_core_kb2s1]
  norm_num [sstore]

theorem trace2_3_eq :
    confirm_guess trace2_2 "s" false = ([("s", kb2s3)], .finalGuess "A" 0) := by
  rw [trace2_2_eq, confirm_guess_single, confirm_core_kb2s2]
  norm_num [sstore]

/-! ### A concrete reachable trace with 5 candidates and 1 question

The caller answers the single question, rejects three guesses (escalation
fires at the 3rd), then keeps playing: answers again, gets a fourth guess
and rejects it — escalation fires again on this 4th incorrect
confirmation. -/

/-- Session stored by `/start` for the 5-candidate base. -/
def kb5s0 : Session :=
  ⟨["a", "b", "c", "d", "e"], [1, 1, 1, 1, 1], ["q"],
    [[1/2, 1/2, 1/2, 1/2, 1/2]], [1/5, 1/5, 1/5, 1/5, 1/5], [],
    [true], 1, 0, 0, none⟩

/-- After answering the question: forced guess of candidate 0. -/
def kb5s1 : Session :=
  ⟨["a", "b", "c", "d", "e"], [1, 1, 1, 1, 1], ["q"],
    [[1/2, 1/2, 1/2, 1/2, 1/2]], [1/5, 1/5, 1/5, 1/5, 1/5], [(0, 0)],
    [false], 1, 0, 0, some 0⟩

/-- After the 1st rejected guess: candidate 1 proposed. -/
def kb5s2 : Session :=
  ⟨["a", "b", "c", "d", "e"], [1, 1, 1, 1, 1], ["q"],
    [[1/2, 1/2, 1/2, 1/2, 1/2]], [0, 1/5, 1/5, 1/5, 1/5], [(0, 0)],
    [false], 1, 1, 0, some 1⟩

/-- After the 2nd rejected guess: candidate 2 proposed. -/
def kb5s3 : Session :=
  ⟨["a", "b", "c", "d", "e"], [1, 1, 1, 1, 1], ["q"],
    [[1/2, 1/2, 1/2, 1/2, 1/2]], [0, 0, 1/5, 1/5, 1/5], [(0, 0)],
    [false], 1, 2, 0, some 2⟩

/-- After the 3rd rejected guess: escalation, failure counter 3. -/
def kb5s4 : Session :=
  ⟨["a", "b", "c", "d", "e"], [1, 1, 1, 1, 1], ["q"],
    [[1/2, 1/2, 1/2, 1/2, 1/2]], [0, 0, 0, 1/5, 1/5], [(0, 0)],
    [false], 1, 3, 0, none⟩

/-- After answering the question again post-escalation: the epsilon addend
has revived the three rejected candidates, and candidate 3 is proposed. -/
def kb5s5 : Session :=
  ⟨["a", "b", "c", "d", "e"], [1, 1, 1, 1, 1], ["q"],
    [[1/2, 1/2, 1/2, 1/2, 1/2]],
    [1/1000005, 1/1000005, 1/1000005, 500001/1000005, 500001/1000005],
    [(0, 0)], [false], 1, 3, 0, some 3⟩

/-- After the 4th rejected guess: escalation again, failure counter 4. -/
def kb5s6 : Session :=
  ⟨["a", "b", "c", "d", "e"], [1, 1, 1, 1, 1], ["q"],
    [[1/2, 1/2, 1/2, 1/2, 1/2]],
    [1/1000005, 1/1000005, 1/1000005, 0, 500001/1000005],
    [(0, 0)], [false], 1, 4, 0, none⟩

noncomputable def trace5_0 : Sessions :=
  (start_session [] "s" ["a", "b", "c", "d", "e"] [1, 1, 1, 1, 1] ["q"]
    [[1/2, 1/2, 1/2, 1/2, 1/2]]).1

noncomputable def trace5_1 : Sessions := (answer_question trace5_0 "s" 0).1

noncomputable def trace5_2 : Sessions := (confirm_guess trace5_1 "s" false).1

noncomputable def trace5_3 : Sessions := (confirm_guess trace5_2 "s" false).1

noncomputable def trace5_4 : Sessions := (confirm_guess trace5_3 "s" false).1

noncomputable def trace5_5 : Sessions := (answer_question trace5_4 "s" 0).1

theorem trace5_0_eq : trace5_0 = [("s", kb5s0)] := by
  simp only [trace5_0, start_session, start_core]
  rw [choix_eq_some_zero]
  · norm_num [sstore, kb5s0]
  · decide
  · exact ⟨_, rfl⟩

theorem answer_core_kb5s0 :
    answer_core kb5s0 0 = (kb5s1, .finalGuess "a" (1/5)) := by
  simp only [answer_core, kb5s0]
  rw [choix_of_any_false]
  · norm_num [donner_proba_animaux_sachant_r, post_row, numer_row, den_subst,
      likelihood, abs_of_pos, max_eq_left, recherche_bonne_reponse,
      np_argmax_last, np_argmax, argmaxAux, SEUIL, VALEURS_REPONSES,
      dictInsert, kb5s1, Session.mk.injEq]
  · decide

theorem confirm_core_kb5s1 :
    confirm_core kb5s1 false = (some kb5s2, .finalGuess "b" (1/5)) := by
  simp only [confirm_core, kb5s1]
  rw [choix_of_any_false]
  · norm_num [np_argmax, argmaxAux, kb5s2, Session.mk.injEq]
  · decide

theorem confirm_core_kb5s2 :
    confirm_core kb5s2 false = (some kb5s3, .finalGuess "c" (1/5)) := by
  simp only [confirm_core, kb5s2]
  rw [choix_of_any_false]
  · norm_num [np_argmax, argmaxAux, kb5s3, Session.mk.injEq]
  · decide

theorem confirm_core_kb5s3 :
    confirm_core kb5s3 false = (some kb5s4, .needSuggestion) := by
  simp only [confirm_core, kb5s3]
  rw [choix_of_any_false]
  · norm_num [kb5s4, Session.mk.injEq]
  · decide

theorem answer_core_kb5s4 :
    answer_core kb5s4 0 = (kb5s5, .finalGuess "d" (500001/1000005)) := by
  simp only [answer_core, kb5s4]
  rw [choix_of_any_false]
  · norm_num [donner_proba_animaux_sachant_r, post_row, numer_row, den_subst,
      likelihood, abs_of_pos, max_eq_left, recherche_bonne_reponse,
      np_argmax_last, np_argmax, argmaxAux, SEUIL, VALEURS_REPONSES,
      dictInsert, kb5s5, Session.mk.injEq]
  · decide

theorem confirm_core_kb5s5 :
    confirm_core kb5s5 false = (some kb5s6, .needSuggestion) := by
  simp only [confirm_core, kb5s5]
  rw [choix_of_any_false]
  · norm_num [kb5s6, Session.mk.injEq]
  · decide

theorem trace5_1_eq : trace5_1 = [("s", kb5s1)] := by
  unfold trace5_1
  rw [trace5_0_eq, answer_question_single, answer_core_kb5s0]
  norm_num [sstore]

theorem trace5_2_eq : trace5_2 = [("s", kb5s2)] := by
  unfold trace5_2
  rw [trace5_1_eq, confirm_guess_single, confirm_core_kb5s1]
  norm_num [sstore]

theorem trace5_3_eq : trace5_3 = [("s", kb5s3)] := by
  unfold trace5_3
  rw [trace5_2_eq, confirm_guess_single, confirm_core_kb5s2]
  norm_num [sstore]

theorem trace5_4_result :
    confirm_guess trace5_3 "s" false = ([("s", kb5s4)], .needSuggestion) := by
  rw [trace5_3_eq, confirm_guess_single, confirm_core_kb5s3]
  norm_num [sstore]

theorem trace5_4_eq : trace5_4 = [("s", kb5s4)] := by
  unfold trace5_4
  rw [trace5_4_result]

theorem trace5_5_eq : trace5_5 = [("s", kb5s5)] := by
  unfold trace5_5
  rw [trace5_4_eq, answer_question_single, answer_core_kb5s4]
  norm_num [sstore]

theorem trace5_6_result :
    confirm_guess trace5_5 "s" false = ([("s", kb5s6)], .needSuggestion) := by
  rw [trace5_5_eq, confirm_guess_single, confirm_core_kb5s5]
  norm_num [sstore]

/-! ### Small registry / list lemmas -/

theorem sstore_self (m : Sessions) (sid : String) (s : Session)
    (h : slookup m sid = some s) : sstore m sid s = m := by
  induction m with
  | nil => simp [slookup] at h
  | cons p rest ih =>
    obtain ⟨k, s'⟩ := p
    by_cases hk : k = sid
    · subst hk
      unfold slookup at h
      rw [if_pos rfl] at h
      injection h with h
      unfold sstore
      rw [if_pos rfl, h]
    · unfold slookup at h
      rw [if_neg hk] at h
      unfold sstore
      rw [if_neg hk, ih h]

theorem getD_set_self {α : Type} (l : List α) (i : ℕ) (a d : α)
    (h : i < l.length) : (l.set i a).getD i d = a := by
  rw [List.getD_eq_getElem _ _ (by simpa using h)]
  simp

theorem getD_set_self_zero (l : List ℚ) (i : ℕ) : (l.set i 0).getD i 0 = 0 := by
  by_cases h : i < l.length
  · exact getD_set_self l i 0 0 h
  · rw [List.getD_eq_default _ _ (by simpa using Nat.le_of_not_lt h)]

theorem sum_set_zero (l : List ℚ) (i : ℕ) (hi : i < l.length) :
    (l.set i 0).sum = l.sum - l.getD i 0 := by
  induction l generalizing i with
  | nil => simp at hi
  | cons x xs ih =>
    cases i with
    | zero => simp
    | succ i =>
      rw [List.set_cons_succ, List.sum_cons, List.sum_cons,
        ih i (by simpa using hi), List.getD_cons_succ]
      ring

/-- The rejection path of `/confirm`: the pending candidate's probability is
zeroed (with no renormalization), the failure counter is incremented, and
the pending guess is either cleared or replaced by the `argmax` of the
reduced vector. -/
theorem confirm_core_false_state (s : Session) (ia : ℕ)
    (hprop : s.animal_propose = some ia) :
    ∃ s' res, confirm_core s false = (some s', res) ∧
      s'.proba_animaux = s.proba_animaux.set ia 0 ∧
      s'.echecs_consecutifs = s.echecs_consecutifs + 1 ∧
      (s'.animal_propose = none ∨
        s'.animal_propose = some (np_argmax (s.proba_animaux.set ia 0))) ∧
      ((res = .needSuggestion) ↔ 3 ≤ s.echecs_consecutifs + 1) := by
  unfold confirm_core
  rw [hprop]
  simp only []
  by_cases h3 : 3 ≤ s.echecs_consecutifs + 1
  · rw [if_pos h3]
    exact ⟨_, _, rfl, rfl, rfl, Or.inl rfl, by simp [h3]⟩
  · rw [if_neg h3]
    rcases hch : choix_meilleure_question s.donnees (s.proba_animaux.set ia 0)
        s.questions_pas_encore_posees with _ | q
    · exact ⟨_, _, rfl, rfl, rfl, Or.inr rfl, by simp [h3]⟩
    · exact ⟨_, _, rfl, rfl, rfl, Or.inl rfl, by simp [h3]⟩

/-! ### Claim C2 -/

/-- C2 (counterexample): `confirm(correct=false)` does **not** renormalize.
In the reachable 2-candidate trace, the session before the rejection has a
pending guess for candidate 0 and a belief vector summing to 1; after the
rejection the stored vector is `P.set 0 0`, the failure counter went up by
one, but the vector sums to 1/2, not 1. -/
theorem C2_counterexample :
    slookup trace2_1 "s" = some kb2s1 ∧ kb2s1.animal_propose = some 0 ∧
    kb2s1.proba_animaux.sum = 1 ∧
    slookup trace2_2 "s" = some kb2s2 ∧
    kb2s2.echecs_consecutifs = kb2s1.echecs_consecutifs + 1 ∧
    kb2s2.proba_animaux = kb2s1.proba_animaux.set 0 0 ∧
    kb2s2.proba_animaux.sum ≠ 1 := by
  refine ⟨by rw [trace2_1_eq]; simp [slookup], rfl, by norm_num [kb2s1],
    by rw [trace2_2_eq]; simp [slookup], rfl, by norm_num [kb2s1, kb2s2],
    by norm_num [kb2s2]⟩

/-- C2 (amended): for a session with pending guess `c*`,
`confirm(correct=false)` sets `P[c*]` to 0 and increments the
consecutive-failure counter by exactly 1, but performs no renormalization:
the new sum is the old sum minus the old `P[c*]`. -/
theorem C2_reject_zeroes_without_renormalizing (s : Session) (ia : ℕ)
    (hprop : s.animal_propose = some ia) (hlt : ia < s.proba_animaux.length) :
    ∃ s' res, confirm_core s false = (some s', res) ∧
      s'.proba_animaux = s.proba_animaux.set ia 0 ∧
      s'.proba_animaux.getD ia 0 = 0 ∧
      s'.echecs_consecutifs = s.echecs_consecutifs + 1 ∧
      s'.proba_animaux.sum = s.proba_animaux.sum - s.proba_animaux.getD ia 0 := by
  obtain ⟨s', res, heq, hP, hE, _, _⟩ := confirm_core_false_state s ia hprop
  exact ⟨s', res, heq, hP, by rw [hP]; exact getD_set_self_zero _ _, hE,
    by rw [hP]; exact sum_set_zero _ _ hlt⟩

/-- C2 (witness): the amended statement applied to the concrete session
`kb2s1` with pending guess 0. -/
theorem C2_reject_zeroes_witness :
    ∃ s' res, confirm_core kb2s1 false = (some s', res) ∧
      s'.proba_animaux = kb2s1.proba_animaux.set 0 0 ∧
      s'.proba_animaux.getD 0 0 = 0 ∧
      s'.echecs_consecutifs = kb2s1.echecs_consecutifs + 1 ∧
      s'.proba_animaux.sum = kb2s1.proba_animaux.sum - kb2s1.proba_animaux.getD 0 0 :=
  C2_reject_zeroes_without_renormalizing kb2s1 0 rfl (by decide)

/-! ### Claim C5 -/

/-- C5 (counterexample): escalation is **not** limited to the 3rd incorrect
confirmation.  In the reachable 5-candidate trace the session `kb5s5`
already has 3 consecutive failures and a pending 4th guess; rejecting it —
the 4th incorrect confirmation of the session — again returns the
escalation result, with the failure counter now 4. -/
theorem C5_counterexample :
    slookup trace5_5 "s" = some kb5s5 ∧
    kb5s5.echecs_consecutifs = 3 ∧ kb5s5.animal_propose = some 3 ∧
    confirm_guess trace5_5 "s" false = ([("s", kb5s6)], .needSuggestion) ∧
    kb5s6.echecs_consecutifs = 4 :=
  ⟨by rw [trace5_5_eq]; simp [slookup], rfl, rfl, trace5_6_result, rfl⟩

/-- C5 (amended): for a session with a pending guess,
`confirm(correct=false)` returns the escalation result iff the
consecutive-failure counter after the increment is at least 3 — so it fires
at the 3rd incorrect confirmation, never at the 1st or 2nd, but also at
every later one because the session survives the escalation. -/
theorem C5_escalation_iff_three_or_more (s : Session) (ia : ℕ)
    (hprop : s.animal_propose = some ia) :
    ∃ s' res, confirm_core s false = (some s', res) ∧
      s'.echecs_consecutifs = s.echecs_consecutifs + 1 ∧
      (res = .needSuggestion ↔ 3 ≤ s.echecs_consecutifs + 1) := by
  obtain ⟨s', res, heq, _, hE, _, hiff⟩ := confirm_core_false_state s ia hprop
  exact ⟨s', res, heq, hE, hiff⟩

/-- C5 (witness): the amended statement applied to `kb5s3`, whose 3rd
rejection does escalate. -/
theorem C5_escalation_witness :
    ∃ s' res, confirm_core kb5s3 false = (some s', res) ∧
      s'.echecs_consecutifs = kb5s3.echecs_consecutifs + 1 ∧
      (res = .needSuggestion ↔ 3 ≤ kb5s3.echecs_consecutifs + 1) :=
  C5_escalation_iff_three_or_more kb5s3 2 rfl

/-! ### Claim C8 -/

/-- C8 (counterexample): a rejected candidate **can** be proposed again in
the same session.  In the reachable 2-candidate trace, candidate 0 is the
pending guess of `trace2_1` and is rejected by the first
`confirm(correct=false)`; the second `confirm(correct=false)` (rejecting
candidate 1) re-emits a final guess for candidate 0 ("A") and stores it as
the pending guess. -/
theorem C8_counterexample :
    slookup trace2_1 "s" = some kb2s1 ∧ kb2s1.animal_propose = some 0 ∧
    trace2_2 = (confirm_guess trace2_1 "s" false).1 ∧
    confirm_guess trace2_2 "s" false = ([("s", kb2s3)], .finalGuess "A" 0) ∧
    kb2s3.animal_propose = some 0 :=
  ⟨by rw [trace2_1_eq]; simp [slookup], rfl, rfl, trace2_3_eq, rfl⟩

/-- C8 (amended): immediately after a rejection, the candidate just
rejected has probability 0 and is not re-proposed by the same
`confirm(correct=false)` call as long as some other candidate still has
positive probability; it can be proposed again later in the session, once
the epsilon smoothing of a further answer revives it or when every
remaining probability is 0. -/
theorem C8_no_immediate_reproposal (s : Session) (ia : ℕ)
    (hprop : s.animal_propose = some ia)
    (hother : ∃ j, j < s.proba_animaux.length ∧ j ≠ ia ∧
      0 < s.proba_animaux.getD j 0) :
    ∃ s' res, confirm_core s false = (some s', res) ∧
      s'.animal_propose ≠ some ia := by
  obtain ⟨s', res, heq, hP, _, hor, _⟩ := confirm_core_false_state s ia hprop
  refine ⟨s', res, heq, ?_⟩
  rcases hor with h | h
  · rw [h]; simp
  · rw [h]
    intro hcontra
    injection hcontra with him
    obtain ⟨j, hj, hne, hpos⟩ := hother
    have hlen : (s.proba_animaux.set ia 0).length = s.proba_animaux.length :=
      List.length_set _ _ _
    have hne' : s.proba_animaux.set ia 0 ≠ [] :=
      List.ne_nil_of_length_pos (by rw [hlen]; omega)
    obtain ⟨_, hmax, _⟩ := np_argmax_spec (s.proba_animaux.set ia 0) hne'
    have h1 : (s.proba_animaux.set ia 0).getD j 0 ≤
        (s.proba_animaux.set ia 0).getD (np_argmax (s.proba_animaux.set ia 0)) 0 :=
      hmax 0 j (by rw [hlen]; omega)
    rw [him] at h1
    have h2 : (s.proba_animaux.set ia 0).getD ia 0 = 0 := getD_set_self_zero _ _
    have h3 : (s.proba_animaux.set ia 0).getD j 0 = s.proba_animaux.getD j 0 :=
      getD_set_ne _ _ _ _ _ hne
    rw [h2, h3] at h1
    linarith

/-- C8 (witness): the amended statement applied to `kb2s1` (pending guess
0, candidate 1 still has probability 1/2). -/
theorem C8_no_immediate_reproposal_witness :
    ∃ s' res, confirm_core kb2s1 false = (some s', res) ∧
      s'.animal_propose ≠ some 0 :=
  C8_no_immediate_reproposal kb2s1 0 rfl ⟨1, by decide, by decide, by norm_num [kb2s1]⟩

/-! ### Claim C9 -/

/-- C9: the three validation errors are rejected synchronously and leave
the session registry — hence every session's belief vector, asked-set,
history and counters, and the knowledge base — unchanged: unknown session
id on `/answer` or `/confirm`, out-of-range scale index on `/answer`, and
`/confirm` with no pending guess. -/
theorem C9_validation_errors :
    (∀ (m : Sessions) (sid : String) (rep : ℤ), slookup m sid = none →
      answer_question m sid rep = (m, .apiError .unknownSession)) ∧
    (∀ (m : Sessions) (sid : String) (rep : ℤ) (s : Session),
      slookup m sid = some s →
      ¬(0 ≤ rep ∧ rep < (VALEURS_REPONSES.length : ℤ)) →
      answer_question m sid rep = (m, .apiError .invalidAnswerIndex)) ∧
    (∀ (m : Sessions) (sid : String) (b : Bool), slookup m sid = none →
      confirm_guess m sid b = (m, .apiError .unknownSession)) ∧
    (∀ (m : Sessions) (sid : String) (b : Bool) (s : Session),
      slookup m sid = some s → s.animal_propose = none →
      confirm_guess m sid b = (m, .apiError .noGuessPending)) := by
  refine ⟨?_, ?_, ?_, ?_⟩
  · intro m sid rep h
    unfold answer_question
    rw [h]
  · intro m sid rep s h hbad
    unfold answer_question
    rw [h]
    simp only []
    unfold answer_core
    rw [if_neg hbad]
    simp only []
    rw [sstore_self m sid s h]
  · intro m sid b h
    unfold confirm_guess
    rw [h]
  · intro m sid b s h hnone
    unfold confirm_guess
    rw [h]
    simp only []
    unfold confirm_core
    rw [hnone]
    simp only []
    rw [sstore_self m sid s h]

/-- C9 (witness): the three error kinds observed on concrete registries,
with the registry unchanged. -/
theorem C9_validation_errors_witness :
    answer_question [] "s" 0 = ([], .apiError .unknownSession) ∧
    answer_question [("s", kb2s0)] "s" 7 =
      ([("s", kb2s0)], .apiError .invalidAnswerIndex) ∧
    confirm_guess [] "s" true = ([], .apiError .unknownSession) ∧
    confirm_guess [("s", kb2s0)] "s" true =
      ([("s", kb2s0)], .apiError .noGuessPending) :=
  ⟨C9_validation_errors.1 [] "s" 0 rfl,
   C9_validation_errors.2.1 [("s", kb2s0)] "s" 7 kb2s0 (slookup_single _ _)
     (by decide),
   C9_validation_errors.2.2.1 [] "s" true rfl,
   C9_validation_errors.2.2.2 [("s", kb2s0)] "s" true kb2s0 (slookup_single _ _)
     rfl⟩

/-! ### Claim C10 -/

theorem answer_core_too_few (s : Session) (rep : ℤ) (h0 : 0 ≤ rep)
    (h5 : rep < (VALEURS_REPONSES.length : ℤ))
    (hfew : s.proba_animaux.length < 2) :
    (answer_core s rep).2 = .apiError .internalError := by
  unfold answer_core
  rw [if_pos ⟨h0, h5⟩]
  simp only [donner_proba_getD]
  split
  · rfl
  case h_2 i p heq =>
    exfalso
    unfold recherche_bonne_reponse at heq
    rw [if_pos (by simp [post_row_length]; omega)] at heq
    exact RechercheResult.noConfusion heq
  case h_3 heq =>
    exfalso
    unfold recherche_bonne_reponse at heq
    rw [if_pos (by simp [post_row_length]; omega)] at heq
    exact RechercheResult.noConfusion heq

/-- C10: a session over fewer than two candidates cannot survive
`/answer`: the confidence check unconditionally unpacks the two most
probable indices from the sorted belief vector, so any valid answer ends in
an internal error rather than a next question or a final guess. -/
theorem C10_requires_two_candidates (m : Sessions) (sid : String) (rep : ℤ)
    (s : Session) (hs : slookup m sid = some s)
    (h0 : 0 ≤ rep) (h5 : rep < (VALEURS_REPONSES.length : ℤ))
    (hlen : s.proba_animaux.length = s.animaux.length)
    (hfew : s.animaux.length < 2) :
    (answer_question m sid rep).2 = .apiError .internalError := by
  unfold answer_question
  rw [hs]
  exact answer_core_too_few s rep h0 h5 (by omega)

/-- Single-candidate session used as the C10 witness. -/
def kb1s : Session := ⟨["A"], [1], ["q"], [[1/2]], [1], [], [true], 1, 0, 0, none⟩

/-- C10 (witness): answering in a 1-candidate session yields the internal
error. -/
theorem C10_requires_two_candidates_witness :
    (answer_question [("s", kb1s)] "s" 0).2 = .apiError .internalError :=
  C10_requires_two_candidates [("s", kb1s)] "s" 0 kb1s (slookup_single _ _)
    (by decide) (by decide) (by decide) (by decide)

/-! ### Claim C1 -/

/-- C1 (counterexample): the belief-vector invariant fails after a rejected
guess.  The state `kb2s2` is reachable (start, answer "Oui", reject the
guess); its belief vector is `[0, 1/2]`: the sum misses 1 by 1/2 (far
beyond the 1e-9 tolerance) and component 0 is not strictly positive. -/
theorem C1_counterexample :
    trace2_2 = (confirm_guess (answer_question (start_session [] "s" ["A", "B"]
      [1, 1] ["q"] [[1/2, 1/2]]).1 "s" 0).1 "s" false).1 ∧
    slookup trace2_2 "s" = some kb2s2 ∧
    ¬(|kb2s2.proba_animaux.sum - 1| ≤ 1/1000000000) ∧
    ¬(∀ x ∈ kb2s2.proba_animaux, 0 < x) := by
  refine ⟨rfl, by rw [trace2_2_eq]; simp [slookup], by norm_num [kb2s2, abs_of_pos], ?_⟩
  intro h
  have := h 0 (by simp [kb2s2])
  norm_num at this

/-- C1 (amended): the invariant does hold after session start (provided
every appearance counter is positive) and after every `/answer` belief
update (for any nonnegative prior): the stored belief vector sums to
exactly 1 and is strictly positive componentwise.  After a rejected guess
it fails, as the counterexample shows. -/
theorem C1_invariant_start_and_answer :
    (∀ (animaux : List String) (compteur : List ℕ) (questions : List String)
        (donnees : List (List ℚ)), compteur ≠ [] → (∀ c ∈ compteur, 0 < c) →
      ∃ s res, start_core animaux compteur questions donnees = some (s, res) ∧
        s.proba_animaux.sum = 1 ∧ ∀ x ∈ s.proba_animaux, 0 < x) ∧
    (∀ (s : Session) (rep : ℤ), 0 ≤ rep → rep < (VALEURS_REPONSES.length : ℤ) →
      (∀ p ∈ s.proba_animaux, 0 ≤ p) →
      s.question_courante < s.donnees.length →
      (∀ row ∈ s.donnees, row.length = s.proba_animaux.length) →
      s.proba_animaux ≠ [] →
      (answer_core s rep).1.proba_animaux.sum = 1 ∧
        ∀ x ∈ (answer_core s rep).1.proba_animaux, 0 < x) := by
  constructor
  · intro animaux compteur questions donnees hne hpos
    have htot : 0 < (compteur.map (fun n : ℕ => (n : ℚ))).sum := by
      rcases compteur with _ | ⟨c, cs⟩
      · exact absurd rfl hne
      · have hc : 0 < (c : ℚ) := by exact_mod_cast hpos c (by simp)
        have hcs : 0 ≤ (cs.map (fun n : ℕ => (n : ℚ))).sum := by
          refine List.sum_nonneg ?_
          intro x hx
          obtain ⟨n, hn, rfl⟩ := List.mem_map.mp hx
          positivity
        rw [List.map_cons, List.sum_cons]
        linarith
    have hsum : (compteur.map
        (fun n : ℕ => (n : ℚ) / (compteur.map (fun n : ℕ => (n : ℚ))).sum)).sum = 1 := by
      have hmm : compteur.map
          (fun n : ℕ => (n : ℚ) / (compteur.map (fun n : ℕ => (n : ℚ))).sum) =
          (compteur.map (fun n : ℕ => (n : ℚ))).map
            (· / (compteur.map (fun n : ℕ => (n : ℚ))).sum) := by
        rw [List.map_map]
        rfl
      rw [hmm, list_sum_map_div, div_self (ne_of_gt htot)]
    have hposall : ∀ x ∈ compteur.map
        (fun n : ℕ => (n : ℚ) / (compteur.map (fun n : ℕ => (n : ℚ))).sum), 0 < x := by
      intro x hx
      obtain ⟨n, hn, rfl⟩ := List.mem_map.mp hx
      have : 0 < (n : ℚ) := by exact_mod_cast hpos n hn
      exact div_pos this htot
    unfold start_core
    rw [if_neg (ne_of_gt htot)]
    simp only []
    rcases hch : choix_meilleure_question donnees
        (compteur.map (fun n : ℕ => (n : ℚ) / (compteur.map (fun n : ℕ => (n : ℚ))).sum))
        (List.replicate questions.length true) with _ | q
    · exact ⟨_, _, rfl, hsum, hposall⟩
    · exact ⟨_, _, rfl, hsum, hposall⟩
  · intro s rep h0 h5 hP hq hrows hnonnil
    rw [answer_core_proba_eq s rep h0 h5]
    have hrow : s.donnees.getD s.question_courante [] ∈ s.donnees := by
      rw [List.getD_eq_getElem _ _ hq]
      exact List.getElem_mem _
    have hlen : (s.donnees.getD s.question_courante []).length =
        s.proba_animaux.length := hrows _ hrow
    have hnil : post_row (VALEURS_REPONSES.getD rep.toNat 0)
        (s.donnees.getD s.question_courante []) s.proba_animaux ≠ [] := by
      have hpos : 0 < s.proba_animaux.length := List.length_pos.mpr hnonnil
      apply List.ne_nil_of_length_pos
      rw [post_row_length, hlen]
      omega
    exact code_update_sum_pos _ _ _ hP hnil

/-- C1 (witness): the amended statement applied to the 2-candidate
knowledge base and the session `kb2s0`. -/
theorem C1_invariant_witness :
    (∃ s res, start_core ["A", "B"] [1, 1] ["q"] [[1/2, 1/2]] = some (s, res) ∧
      s.proba_animaux.sum = 1 ∧ ∀ x ∈ s.proba_animaux, 0 < x) ∧
    ((answer_core kb2s0 0).1.proba_animaux.sum = 1 ∧
      ∀ x ∈ (answer_core kb2s0 0).1.proba_animaux, 0 < x) :=
  ⟨C1_invariant_start_and_answer.1 ["A", "B"] [1, 1] ["q"] [[1/2, 1/2]]
      (by decide) (by decide),
   C1_invariant_start_and_answer.2 kb2s0 0 (by decide) (by decide)
      (by norm_num [kb2s0]) (by decide) (by norm_num [kb2s0]) (by decide)⟩

/-! ### Claim C3 -/

/-- C3: the `/answer` belief update is the pure composite the spec
describes — likelihood `max(1 − |r − D[q][c]|, 0.05)` times the prior,
normalization with divisor 1 substituted for a zero sum, a `1e-6` addend
per component, and renormalization; and on the uniform 3-candidate prior
with matrix row `[0.9, 0.1, 0.5]` and answer value 1 the normalized
posterior before epsilon smoothing is exactly `[3/5, 1/15, 1/3]`
(≈ `[0.60, 0.067, 0.333]`). -/
theorem C3_belief_update (s : Session) (rep : ℤ) (h0 : 0 ≤ rep)
    (h5 : rep < (VALEURS_REPONSES.length : ℤ)) :
    (answer_core s rep).1.proba_animaux =
      belief_update_spec s.proba_animaux
        (s.donnees.getD s.question_courante [])
        (VALEURS_REPONSES.getD rep.toNat 0) ∧
    (donner_proba_animaux_sachant_r 1 [[9/10, 1/10, 1/2]] [1/3, 1/3, 1/3]).1 =
      [[3/5, 1/15, 1/3]] := by
  constructor
  · rw [answer_core_proba_eq s rep h0 h5, code_update_eq_spec]
  · norm_num [donner_proba_animaux_sachant_r, post_row, numer_row, den_subst,
      likelihood, abs_of_pos, max_eq_left]

/-- C3 (witness): the statement applied to `kb2s0` with answer index 0. -/
theorem C3_belief_update_witness :
    ((answer_core kb2s0 0).1.proba_animaux =
      belief_update_spec kb2s0.proba_animaux
        (kb2s0.donnees.getD kb2s0.question_courante [])
        (VALEURS_REPONSES.getD (Int.toNat 0) 0) ∧
      (donner_proba_animaux_sachant_r 1 [[9/10, 1/10, 1/2]] [1/3, 1/3, 1/3]).1 =
        [[3/5, 1/15, 1/3]]) :=
  C3_belief_update kb2s0 0 (by decide) (by decide)

/-! ### Claim C4 -/

/-- C4: the question selector signals exhaustion exactly when no unasked
question remains, never returns an asked index, and otherwise returns the
unasked question minimizing the spec's expected entropy
`EH[q] = Σ_r p(r)·H(r)` (`p(r)` the unnormalized posterior mass, `H(r)` the
base-2 Shannon entropy with 0-terms for 0 components), with ties broken by
the lowest question index. -/
theorem C4_question_selector (D : List (List ℚ)) (P : List ℚ)
    (mask : List Bool) (hlen : mask.length = D.length)
    (hP : ∀ p ∈ P, 0 ≤ p) :
    (choix_meilleure_question D P mask = none ↔ ∀ b ∈ mask, b = false) ∧
    (∀ q, choix_meilleure_question D P mask = some q →
      q < D.length ∧ mask.getD q false = true ∧
      (∀ j, j < D.length → mask.getD j false = true →
        EH_spec (D.getD q []) P ≤ EH_spec (D.getD j []) P) ∧
      (∀ j, j < q → mask.getD j false = true →
        EH_spec (D.getD q []) P < EH_spec (D.getD j []) P)) :=
  choix_meilleure_question_spec D P mask hlen hP

/-- C4 (witness): the selector statement applied to a concrete 2-question
base with one question already asked. -/
theorem C4_question_selector_witness :
    ((choix_meilleure_question [[(0 : ℚ)], [1]] [1] [true, false] = none ↔
        ∀ b ∈ [true, false], b = false) ∧
     (∀ q, choix_meilleure_question [[(0 : ℚ)], [1]] [1] [true, false] = some q →
        q < [[(0 : ℚ)], [1]].length ∧ [true, false].getD q false = true ∧
        (∀ j, j < [[(0 : ℚ)], [1]].length → [true, false].getD j false = true →
          EH_spec ([[(0 : ℚ)], [1]].getD q []) [1] ≤
            EH_spec ([[(0 : ℚ)], [1]].getD j []) [1]) ∧
        (∀ j, j < q → [true, false].getD j false = true →
          EH_spec ([[(0 : ℚ)], [1]].getD q []) [1] <
            EH_spec ([[(0 : ℚ)], [1]].getD j []) [1]))) :=
  C4_question_selector [[(0 : ℚ)], [1]] [1] [true, false] (by decide)
    (by norm_num)

/-! ### Claim C6 -/

/-- C6: `confirm(correct=true)` hands the persistence collaborator a
knowledge base in which exactly the `(question, answer)` pairs of the
session's history received the EMA update
`D[q][w] += 0.1 × (answerValue − D[q][w])` on the winning candidate's
column, every other cell is unchanged, the winner's appearance counter went
up by exactly 1 and the others are unchanged; in particular
`D[0][0] = 0.9` with answer value 1 becomes `0.91`. -/
theorem C6_confirmed_learning (s : Session) (w : ℕ)
    (hprop : s.animal_propose = some w)
    (hnd : (s.reponses_donnees.map Prod.fst).Nodup)
    (hrange : ∀ p ∈ s.reponses_donnees,
      p.1 < s.donnees.length ∧ w < (s.donnees.getD p.1 []).length)
    (hw : w < s.compteur_apparitions.length) :
    ∃ saved : SavedKB, confirm_core s true = (none, .confirmed saved) ∧
      (∀ p ∈ s.reponses_donnees,
        getCell saved.donnees p.1 w =
          getCell s.donnees p.1 w +
            (1/10) * (VALEURS_REPONSES.getD p.2 0 - getCell s.donnees p.1 w)) ∧
      (∀ q c, c ≠ w ∨ q ∉ s.reponses_donnees.map Prod.fst →
        getCell saved.donnees q c = getCell s.donnees q c) ∧
      saved.compteur_apparitions.getD w 0 =
        s.compteur_apparitions.getD w 0 + 1 ∧
      (∀ c, c ≠ w → saved.compteur_apparitions.getD c 0 =
        s.compteur_apparitions.getD c 0) ∧
      saved.animaux = s.animaux ∧ saved.questions = s.questions ∧
      actualisation_valeurs_theoriques [[9/10]] 0 [(0, 0)] = [[91/100]] := by
  refine ⟨⟨s.animaux,
    s.compteur_apparitions.set w (s.compteur_apparitions.getD w 0 + 1),
    s.questions, actualisation_valeurs_theoriques s.donnees w s.reponses_donnees⟩,
    ?_, ?_, ?_, ?_, ?_, rfl, rfl, ?_⟩
  · unfold confirm_core
    rw [hprop]
    rfl
  · exact actualisation_touched s.donnees w s.reponses_donnees hnd hrange
  · exact fun q c h => actualisation_untouched s.donnees w s.reponses_donnees q c h
  · exact getD_set_self _ _ _ _ hw
  · exact fun c hc => getD_set_ne _ _ _ _ _ hc
  · norm_num [actualisation_valeurs_theoriques, setCell, getCell,
      VALEURS_REPONSES]

/-- C6 (witness): the statement applied to `kb2s1` confirming candidate 0
after one recorded answer. -/
theorem C6_confirmed_learning_witness :
    ∃ saved : SavedKB, confirm_core kb2s1 true = (none, .confirmed saved) ∧
      (∀ p ∈ kb2s1.reponses_donnees,
        getCell saved.donnees p.1 0 =
          getCell kb2s1.donnees p.1 0 +
            (1/10) * (VALEURS_REPONSES.getD p.2 0 - getCell kb2s1.donnees p.1 0)) ∧
      (∀ q c, c ≠ 0 ∨ q ∉ kb2s1.reponses_donnees.map Prod.fst →
        getCell saved.donnees q c = getCell kb2s1.donnees q c) ∧
      saved.compteur_apparitions.getD 0 0 =
        kb2s1.compteur_apparitions.getD 0 0 + 1 ∧
      (∀ c, c ≠ 0 → saved.compteur_apparitions.getD c 0 =
        kb2s1.compteur_apparitions.getD c 0) ∧
      saved.animaux = kb2s1.animaux ∧ saved.questions = kb2s1.questions ∧
      actualisation_valeurs_theoriques [[9/10]] 0 [(0, 0)] = [[91/100]] :=
  C6_confirmed_learning kb2s1 0 rfl (by decide) (by decide) (by decide)

/-! ### Claim C7 -/

/-- `n` confirmed wins of the same candidate with the same recorded
answers: the learning update applied `n` times. -/
def actualisation_iter (D : List (List ℚ)) (w : ℕ) (hist : List (ℕ × ℕ)) :
    ℕ → List (List ℚ)
  | 0 => D
  | n + 1 => actualisation_valeurs_theoriques (actualisation_iter D w hist n) w hist

theorem actualisation_iter_length (D : List (List ℚ)) (w : ℕ)
    (hist : List (ℕ × ℕ)) (n : ℕ) :
    (actualisation_iter D w hist n).length = D.length ∧
    ∀ k, ((actualisation_iter D w hist n).getD k []).length =
      (D.getD k []).length := by
  induction n with
  | zero => exact ⟨rfl, fun k => rfl⟩
  | succ n ih =>
    refine ⟨?_, fun k => ?_⟩
    · rw [show actualisation_iter D w hist (n + 1) =
        actualisation_valeurs_theoriques (actualisation_iter D w hist n) w hist
        from rfl, actualisation_length, ih.1]
    · rw [show actualisation_iter D w hist (n + 1) =
        actualisation_valeurs_theoriques (actualisation_iter D w hist n) w hist
        from rfl, actualisation_row_length, ih.2 k]

theorem actualisation_iter_untouched (D : List (List ℚ)) (w : ℕ)
    (hist : List (ℕ × ℕ)) (n : ℕ) (q c : ℕ)
    (h : c ≠ w ∨ q ∉ hist.map Prod.fst) :
    getCell (actualisation_iter D w hist n) q c = getCell D q c := by
  induction n with
  | zero => rfl
  | succ n ih =>
    rw [show actualisation_iter D w hist (n + 1) =
      actualisation_valeurs_theoriques (actualisation_iter D w hist n) w hist
      from rfl, actualisation_untouched _ _ _ _ _ h, ih]

theorem actualisation_iter_step (D : List (List ℚ)) (w : ℕ)
    (hist : List (ℕ × ℕ)) (hnd : (hist.map Prod.fst).Nodup)
    (hrange : ∀ p ∈ hist, p.1 < D.length ∧ w < (D.getD p.1 []).length)
    (n : ℕ) (p : ℕ × ℕ) (hp : p ∈ hist) :
    getCell (actualisation_iter D w hist (n + 1)) p.1 w =
      getCell (actualisation_iter D w hist n) p.1 w +
        (1/10) * (VALEURS_REPONSES.getD p.2 0 -
          getCell (actualisation_iter D w hist n) p.1 w) := by
  have hr : ∀ p' ∈ hist, p'.1 < (actualisation_iter D w hist n).length ∧
      w < ((actualisation_iter D w hist n).getD p'.1 []).length := by
    intro p' hp'
    obtain ⟨h1, h2⟩ := actualisation_iter_length D w hist n
    rw [h1, h2]
    exact hrange p' hp'
  exact actualisation_touched _ w hist hnd hr p hp

theorem valeurs_bounds (a : ℕ) :
    0 ≤ VALEURS_REPONSES.getD a 0 ∧ VALEURS_REPONSES.getD a 0 ≤ 1 := by
  match a with
  | 0 => norm_num [VALEURS_REPONSES]
  | 1 => norm_num [VALEURS_REPONSES]
  | 2 => norm_num [VALEURS_REPONSES]
  | 3 => norm_num [VALEURS_REPONSES]
  | 4 => norm_num [VALEURS_REPONSES]
  | n + 5 =>
    rw [List.getD_eq_default _ _ (by simp [VALEURS_REPONSES])]
    norm_num

theorem actualisation_iter_bounds (D : List (List ℚ)) (w : ℕ)
    (hist : List (ℕ × ℕ)) (hnd : (hist.map Prod.fst).Nodup)
    (hrange : ∀ p ∈ hist, p.1 < D.length ∧ w < (D.getD p.1 []).length)
    (hD : ∀ row ∈ D, ∀ x ∈ row, 0 ≤ x ∧ x ≤ 1)
    (n : ℕ) (p : ℕ × ℕ) (hp : p ∈ hist) :
    0 ≤ getCell (actualisation_iter D w hist n) p.1 w ∧
      getCell (actualisation_iter D w hist n) p.1 w ≤ 1 := by
  induction n with
  | zero =>
    obtain ⟨hq, hw⟩ := hrange p hp
    have hrowmem : D.getD p.1 [] ∈ D := by
      rw [List.getD_eq_getElem _ _ hq]
      exact List.getElem_mem _
    have hcellmem : (D.getD p.1 []).getD w 0 ∈ D.getD p.1 [] := by
      rw [List.getD_eq_getElem _ _ hw]
      exact List.getElem_mem _
    exact hD _ hrowmem _ hcellmem
  | succ n ih =>
    rw [actualisation_iter_step D w hist hnd hrange n p hp]
    obtain ⟨hv0, hv1⟩ := valeurs_bounds p.2
    obtain ⟨h0, h1⟩ := ih
    constructor <;> nlinarith

/-- C7: iterating the learning update for the same winner over the same
duplicate-free answer history moves each touched cell monotonically toward
the recorded answer value while staying within `[0, 1]` (given a `[0, 1]`
matrix), and every cell of any other (question, candidate) pair is always
unchanged. -/
theorem C7_learning_convergence (D : List (List ℚ)) (w : ℕ)
    (hist : List (ℕ × ℕ)) (hnd : (hist.map Prod.fst).Nodup)
    (hrange : ∀ p ∈ hist, p.1 < D.length ∧ w < (D.getD p.1 []).length)
    (hD : ∀ row ∈ D, ∀ x ∈ row, 0 ≤ x ∧ x ≤ 1) (n : ℕ) :
    (∀ p ∈ hist,
      |getCell (actualisation_iter D w hist (n + 1)) p.1 w -
          VALEURS_REPONSES.getD p.2 0| ≤
        |getCell (actualisation_iter D w hist n) p.1 w -
          VALEURS_REPONSES.getD p.2 0| ∧
      (getCell (actualisation_iter D w hist n) p.1 w ≤
          VALEURS_REPONSES.getD p.2 0 →
        getCell (actualisation_iter D w hist n) p.1 w ≤
            getCell (actualisation_iter D w hist (n + 1)) p.1 w ∧
          getCell (actualisation_iter D w hist (n + 1)) p.1 w ≤
            VALEURS_REPONSES.getD p.2 0) ∧
      (VALEURS_REPONSES.getD p.2 0 ≤
          getCell (actualisation_iter D w hist n) p.1 w →
        getCell (actualisation_iter D w hist (n + 1)) p.1 w ≤
            getCell (actualisation_iter D w hist n) p.1 w ∧
          VALEURS_REPONSES.getD p.2 0 ≤
            getCell (actualisation_iter D w hist (n + 1)) p.1 w) ∧
      0 ≤ getCell (actualisation_iter D w hist n) p.1 w ∧
      getCell (actualisation_iter D w hist n) p.1 w ≤ 1) ∧
    (∀ q c, c ≠ w ∨ q ∉ hist.map Prod.fst →
      getCell (actualisation_iter D w hist n) q c = getCell D q c) := by
  constructor
  · intro p hp
    have hstep := actualisation_iter_step D w hist hnd hrange n p hp
    have hbounds := actualisation_iter_bounds D w hist hnd hrange hD n p hp
    rw [hstep]
    set x := getCell (actualisation_iter D w hist n) p.1 w with hx
    set v := VALEURS_REPONSES.getD p.2 0 with hv
    refine ⟨?_, ?_, ?_, hbounds.1, hbounds.2⟩
    · rw [show x + 1/10 * (v - x) - v = (9/10) * (x - v) by ring, abs_mul,
        show |(9/10 : ℚ)| = 9/10 by norm_num]
      nlinarith [abs_nonneg (x - v)]
    · intro hxy
      constructor <;> linarith
    · intro hxy
      constructor <;> linarith
  · exact fun q c h => actualisation_iter_untouched D w hist n q c h

/-- C7 (witness): the statement applied to the one-cell matrix `[[9/10]]`
with one recorded "Oui" answer, after 0 iterations. -/
theorem C7_learning_convergence_witness :
    (∀ p ∈ [((0 : ℕ), (0 : ℕ))],
      |getCell (actualisation_iter [[9/10]] 0 [(0, 0)] 1) p.1 0 -
          VALEURS_REPONSES.getD p.2 0| ≤
        |getCell (actualisation_iter [[9/10]] 0 [(0, 0)] 0) p.1 0 -
          VALEURS_REPONSES.getD p.2 0| ∧
      (getCell (actualisation_iter [[9/10]] 0 [(0, 0)] 0) p.1 0 ≤
          VALEURS_REPONSES.getD p.2 0 →
        getCell (actualisation_iter [[9/10]] 0 [(0, 0)] 0) p.1 0 ≤
            getCell (actualisation_iter [[9/10]] 0 [(0, 0)] 1) p.1 0 ∧
          getCell (actualisation_iter [[9/10]] 0 [(0, 0)] 1) p.1 0 ≤
            VALEURS_REPONSES.getD p.2 0) ∧
      (VALEURS_REPONSES.getD p.2 0 ≤
          getCell (actualisation_iter [[9/10]] 0 [(0, 0)] 0) p.1 0 →
        getCell (actualisation_iter [[9/10]] 0 [(0, 0)] 1) p.1 0 ≤
            getCell (actualisation_iter [[9/10]] 0 [(0, 0)] 0) p.1 0 ∧
          VALEURS_REPONSES.getD p.2 0 ≤
            getCell (actualisation_iter [[9/10]] 0 [(0, 0)] 1) p.1 0) ∧
      0 ≤ getCell (actualisation_iter [[9/10]] 0 [(0, 0)] 0) p.1 0 ∧
      getCell (actualisation_iter [[9/10]] 0 [(0, 0)] 0) p.1 0 ≤ 1) ∧
    (∀ q c, c ≠ 0 ∨ q ∉ [((0 : ℕ), (0 : ℕ))].map Prod.fst →
      getCell (actualisation_iter [[9/10]] 0 [(0, 0)] 0) q c =
        getCell [[9/10]] q c) :=
  C7_learning_convergence [[9/10]] 0 [(0, 0)] (by decide) (by decide)
    (by norm_num) 0

end Akinator
